import Mathlib

/-!
# pandas-msgpack `packers.py` — shallow embedding and verification

This file embeds the encode/decode type-tagging protocol and the value
conversion / compression layer of `pandas_msgpack/packers.py` into Lean and
proves (or refutes) the frozen claims about it.

Modelling conventions:

* machine integers are `Nat`/`Int`; a fixed-width numpy array stores the raw
  little-endian bit pattern of each element as a `Nat` below `256 ^ itemsize`,
  so "bit identical" is literal equality of patterns (this also covers
  `float64`: a float element is represented by its 64-bit pattern, which is
  exact);
* the msgpack framing layer (an external collaborator in the spec) is the
  `Msg` tree: string-keyed maps, arrays, scalars and extension blobs with a
  numeric subtype code;
* the compression backends (zlib / blosc) and the CPython buffer-move
  primitive are external collaborators; they are threaded through as a
  `CompressEnv` record of opaque byte transforms plus availability flags and
  a `moveFails` flag that models `_move_into_mutable_buffer` raising
  `BadMove` (a caching decompressor);
* Python exceptions are `Except String`.
-/

namespace PandasMsgpack

/-! ## Byte-level helpers: numpy `tostring` / `frombuffer`

A fixed-width array flattens to bytes little-endian (`v.tostring()`), and
`np.frombuffer` reinterprets a byte buffer as a flat array of a declared
dtype by cutting it into `itemsize`-byte words. -/

/-- Little-endian byte expansion of a word to exactly `k` bytes. -/
def natToBytesLE : Nat → Nat → List Nat
  | 0, _ => []
  | k + 1, n => n % 256 :: natToBytesLE k (n / 256)

/-- Little-endian byte collapse. -/
def bytesToNatLE : List Nat → Nat
  | [] => 0
  | b :: bs => b + 256 * bytesToNatLE bs

theorem length_natToBytesLE (k n : Nat) : (natToBytesLE k n).length = k := by
  induction k generalizing n with
  | zero => rfl
  | succ k ih => simp [natToBytesLE, ih]

theorem mod_mul_256 (n m : Nat) (hm : 0 < m) :
    n % (256 * m) = n % 256 + 256 * (n / 256 % m) := by
  conv_lhs => rw [← Nat.div_add_mod n 256]
  rw [Nat.add_mod, Nat.mul_mod_mul_left]
  have h1 : n % 256 < 256 := Nat.mod_lt _ (by norm_num)
  have h2 : n / 256 % m < m := Nat.mod_lt _ hm
  have h3 : (n % 256) % (256 * m) = n % 256 :=
    Nat.mod_eq_of_lt (by nlinarith)
  rw [h3, Nat.mod_eq_of_lt (by nlinarith)]
  omega

theorem bytesToNatLE_natToBytesLE (k n : Nat) :
    bytesToNatLE (natToBytesLE k n) = n % 256 ^ k := by
  induction k generalizing n with
  | zero => simp [natToBytesLE, bytesToNatLE, Nat.mod_one]
  | succ k ih =>
      have h : (256 : Nat) ^ (k + 1) = 256 * 256 ^ k := by ring
      simp only [natToBytesLE, bytesToNatLE, ih, h]
      exact (mod_mul_256 n (256 ^ k) (Nat.pos_pow_of_pos _ (by norm_num))).symm

/-- Cut a byte list into consecutive `k`-byte words, dropping a ragged tail. -/
def chunkWords (k : Nat) (bs : List Nat) : List (List Nat) :=
  (List.range (bs.length / k)).map (fun i => (bs.drop (i * k)).take k)

theorem chunkWords_nil (k : Nat) : chunkWords k [] = [] := by
  simp [chunkWords]

theorem chunkWords_append (k : Nat) (hk : 0 < k) (w rest : List Nat)
    (hw : w.length = k) : chunkWords k (w ++ rest) = w :: chunkWords k rest := by
  unfold chunkWords
  have hlen : (w ++ rest).length = rest.length + k := by
    simp [hw]
    omega
  rw [hlen, Nat.add_div_right _ hk, List.range_succ_eq_map]
  simp only [List.map_cons, List.map_map]
  congr 1
  · simp only [Nat.zero_mul, List.drop_zero, ← hw, List.take_left]
  · refine List.map_congr_left (fun i _ => ?_)
    simp only [Function.comp_apply, Nat.succ_mul]
    rw [Nat.add_comm (i * k) k, ← List.drop_drop, ← hw, List.drop_left]

/-- `np.frombuffer(bs, dtype-of-width-k)` as raw words (caller checks the
length is a multiple of `k`). -/
def frombufferWords (k : Nat) (bs : List Nat) : List Nat :=
  (chunkWords k bs).map bytesToNatLE

/-- `v.tostring()` of a flat word list at width `k`. -/
def wordsToBytes (k : Nat) (ws : List Nat) : List Nat :=
  (ws.map (natToBytesLE k)).flatten

theorem wordsToBytes_cons (k w : Nat) (ws : List Nat) :
    wordsToBytes k (w :: ws) = natToBytesLE k w ++ wordsToBytes k ws := by
  simp [wordsToBytes]

theorem length_wordsToBytes (k : Nat) (ws : List Nat) :
    (wordsToBytes k ws).length = k * ws.length := by
  induction ws with
  | nil => simp [wordsToBytes]
  | cons w ws ih =>
      rw [wordsToBytes_cons]
      simp only [List.length_append, length_natToBytesLE, ih, List.length_cons,
        Nat.mul_succ]
      omega

theorem frombufferWords_wordsToBytes (k : Nat) (hk : 0 < k) (ws : List Nat)
    (hws : ∀ w ∈ ws, w < 256 ^ k) :
    frombufferWords k (wordsToBytes k ws) = ws := by
  induction ws with
  | nil => simp [wordsToBytes, frombufferWords, chunkWords_nil]
  | cons w ws ih =>
      have hw : w < 256 ^ k := hws w (by simp)
      have hrest : ∀ x ∈ ws, x < 256 ^ k := fun x hx => hws x (by simp [hx])
      rw [wordsToBytes_cons, frombufferWords,
        chunkWords_append k hk _ _ (length_natToBytesLE k w)]
      simp only [List.map_cons]
      rw [bytesToNatLE_natToBytesLE, Nat.mod_eq_of_lt hw]
      have := ih hrest
      rw [frombufferWords] at this
      rw [this]

/-! ## Signed 64-bit views

`obj.asi8` hands out signed 64-bit ordinals; arrays store the two's
complement bit pattern. -/

/-- Two's complement 64-bit pattern of a signed integer. -/
def bitsOfInt64 (i : Int) : Nat := (i % 18446744073709551616).toNat

/-- Signed value of a 64-bit pattern. -/
def intOfBits64 (w : Nat) : Int :=
  if w < 9223372036854775808 then (w : Int) else (w : Int) - 18446744073709551616

theorem bitsOfInt64_lt (i : Int) : bitsOfInt64 i < 18446744073709551616 := by
  unfold bitsOfInt64
  omega

/-- In-range signed integers round-trip through the 64-bit pattern. -/
theorem intOfBits64_bitsOfInt64 (i : Int)
    (h1 : -9223372036854775808 ≤ i) (h2 : i < 9223372036854775808) :
    intOfBits64 (bitsOfInt64 i) = i := by
  unfold intOfBits64 bitsOfInt64
  split <;> omega

/-- 64-bit patterns are below `256 ^ 8`. -/
theorem bitsOfInt64_lt_pow (i : Int) : bitsOfInt64 i < 256 ^ 8 := by
  have := bitsOfInt64_lt i
  norm_num at *
  omega

/-! ## Dtypes

The closed set of dtypes the claims exercise. `category` only ever appears
as the *declared* dtype handed to `unconvert` (a real categorical value is a
`Categorical`, not an ndarray). -/

inductive DType
  | object
  | int8
  | int64
  | float64
  | datetime64ns
  | timedelta64ns
  | category
deriving DecidableEq, Repr

/-- `dtype.itemsize` — element byte width (the value for `object` is the
pointer width; it is never used on the object path). -/
def DType.itemsize : DType → Nat
  | .object => 8
  | .int8 => 1
  | .int64 => 8
  | .float64 => 8
  | .datetime64ns => 8
  | .timedelta64ns => 8
  | .category => 8

theorem DType.itemsize_pos (d : DType) : 0 < d.itemsize := by
  cases d <;> simp [itemsize]

/-- `pandas.api.types.is_object_dtype`. -/
def is_object_dtype (d : DType) : Bool := d == .object

/-- `pandas.api.types.is_categorical_dtype` on a plain dtype. -/
def is_categorical_dtype_of (d : DType) : Bool := d == .category

/-- `pandas.core.dtypes.common.needs_i8_conversion` — datetime/timedelta
(and period) dtypes are reinterpreted as 8-byte signed integers. -/
def needs_i8_conversion (d : DType) : Bool :=
  match d with
  | .datetime64ns => true
  | .timedelta64ns => true
  | _ => false

/-- `dtype.name`, as written into the wire records. -/
def DType.name : DType → String
  | .object => "object"
  | .int8 => "int8"
  | .int64 => "int64"
  | .float64 => "float64"
  | .datetime64ns => "datetime64[ns]"
  | .timedelta64ns => "timedelta64[ns]"
  | .category => "category"

/-- `pandas_dtype(dtype).base` — identity on every dtype this model carries
(`.base` only strips parametrization such as a timezone, which the modelled
dtypes do not have). -/
def pandasDtypeBase (d : DType) : DType := d

/-! ## Python scalars and the msgpack value tree -/

/-- Scalar Python objects that travel through object-dtype arrays and record
fields (strings, ints, bools, `None`, tuples of these). -/
inductive PyScalar
  | str (s : String)
  | int (n : Int)
  | bool (b : Bool)
  | none
  | tuple (xs : List PyScalar)

/-- The external msgpack framing tree: maps with string keys, arrays,
primitive scalars, `nil`, and extension blobs carrying a numeric subtype
code plus raw bytes. -/
inductive Msg
  | map (fields : List (String × Msg))
  | arr (xs : List Msg)
  | str (s : String)
  | int (n : Int)
  | bool (b : Bool)
  | nil
  | ext (code : Nat) (data : List Nat)

mutual

/-- Wire form of a Python scalar: the framing layer packs primitives
natively and tuples as arrays (the encoder hook is not consulted). -/
def scalarToMsg : PyScalar → Msg
  | .str s => .str s
  | .int n => .int n
  | .bool b => .bool b
  | .none => .nil
  | .tuple xs => .arr (scalarsToMsg xs)

/-- Wire forms of a list of Python scalars. -/
def scalarsToMsg : List PyScalar → List Msg
  | [] => []
  | x :: xs => scalarToMsg x :: scalarsToMsg xs

end

mutual

/-- The unpacker's inverse on scalar positions: primitives come back as
themselves and arrays as tuples (`use_list=False`). -/
def msgToScalar : Msg → Except String PyScalar
  | .str s => .ok (.str s)
  | .int n => .ok (.int n)
  | .bool b => .ok (.bool b)
  | .nil => .ok .none
  | .arr xs => (PyScalar.tuple ·) <$> msgsToScalars xs
  | .map _ => .error "unexpected mapping in scalar position"
  | .ext _ _ => .error "unexpected ext blob in scalar position"

/-- Scalar reading of a wire array, element by element. -/
def msgsToScalars : List Msg → Except String (List PyScalar)
  | [] => .ok []
  | m :: ms => do
      let s ← msgToScalar m
      let ss ← msgsToScalars ms
      .ok (s :: ss)

end

mutual

theorem msgToScalar_scalarToMsg : ∀ (s : PyScalar),
    msgToScalar (scalarToMsg s) = .ok s
  | .str _ => rfl
  | .int _ => rfl
  | .bool _ => rfl
  | .none => rfl
  | .tuple xs => by
      simp only [scalarToMsg, msgToScalar, msgsToScalars_scalarsToMsg xs]
      rfl

theorem msgsToScalars_scalarsToMsg : ∀ (xs : List PyScalar),
    msgsToScalars (scalarsToMsg xs) = .ok xs
  | [] => rfl
  | x :: xs => by
      simp only [scalarsToMsg, msgsToScalars, msgToScalar_scalarToMsg x,
        msgsToScalars_scalarsToMsg xs]
      rfl

end

/-! ## Arrays and composite values -/

/-- Array payload: object arrays hold Python scalars; every other dtype
holds raw per-element bit patterns. -/
inductive ArrData
  | obj (xs : List PyScalar)
  | fixed (words : List Nat)

/-- A numpy ndarray: dtype, shape, flat element data (C order). -/
structure NDArray where
  dtype : DType
  shape : List Nat
  data : ArrData

/-- `values.view("i8")` — reinterpret datetime-like elements as 8-byte
signed integers; the bit patterns are untouched. -/
def NDArray.viewI8 (a : NDArray) : NDArray := { a with dtype := .int64 }

/-- `v.tostring()` — flatten the fixed-width data to little-endian bytes
(the object case is unreachable on this path and yields no bytes). -/
def NDArray.tostring (a : NDArray) : List Nat :=
  match a.data with
  | .fixed ws => wordsToBytes a.dtype.itemsize ws
  | .obj _ => []

/-- `values.ravel().tolist()` for an object array. -/
def NDArray.objList (a : NDArray) : List PyScalar :=
  match a.data with
  | .obj xs => xs
  | .fixed _ => []

/-- Well-formed fixed-width 1-D array: patterns fit the item width and the
shape records the element count. -/
def NDArray.wfFixed (a : NDArray) : Prop :=
  ∃ ws, a.data = .fixed ws ∧ a.shape = [ws.length] ∧
    (∀ w ∈ ws, w < 256 ^ a.dtype.itemsize) ∧
    a.dtype ≠ .object ∧ a.dtype ≠ .category

/-- Well-formed 1-D object array. -/
def NDArray.wfObj (a : NDArray) : Prop :=
  ∃ xs, a.data = .obj xs ∧ a.shape = [xs.length] ∧ a.dtype = .object

def NDArray.wf (a : NDArray) : Prop := a.wfFixed ∨ a.wfObj

/-- An axis label container, by concrete index flavor.  `CategoricalIndex`
and the sparse index classes are outside the modelled fragment. -/
inductive IndexObj
  | plain (klass : String) (name : Option PyScalar) (values : NDArray)
  | range (name : Option PyScalar) (start stop step : Int)
  | periodIdx (name : Option PyScalar) (freq : String) (ordinals : List Int)
  | datetimeIdx (name : Option PyScalar) (tz : Option String)
      (freq : Option String) (ordinals : List Int)
  | multi (names : List (Option PyScalar)) (rows : List (List PyScalar))

/-- A pandas `Categorical`: integer codes into a category index plus the
ordered flag. -/
structure CategoricalData where
  codes : NDArray
  categories : IndexObj
  ordered : Bool

/-- A value handed to `convert`: either a raw ndarray or a `Categorical`
(series/block values of categorical dtype). -/
inductive ArrOrCat
  | arr (a : NDArray)
  | cat (c : CategoricalData)

/-! ## Compression backends (external collaborators)

The byte transforms themselves live outside the repository; they are
threaded through as opaque functions plus availability flags.  `moveFails`
models `_move_into_mutable_buffer` raising `BadMove` because the
decompressor cached/reused its buffer. -/

structure CompressEnv where
  zlibAvailable : Bool
  bloscAvailable : Bool
  zlibCompress : List Nat → List Nat
  zlibDecompress : List Nat → List Nat
  bloscCompress : Nat → List Nat → List Nat
  bloscDecompress : List Nat → List Nat
  moveFails : Bool

/-- `_check_zlib()`. -/
def check_zlib (env : CompressEnv) : Except String Unit :=
  if env.zlibAvailable then .ok () else .error "zlib is not installed"

/-- `_check_blosc()`. -/
def check_blosc (env : CompressEnv) : Except String Unit :=
  if env.bloscAvailable then .ok () else .error "blosc is not installed"

/-- An identity environment used to instantiate theorems at concrete
inputs: both backends installed, identity transforms, no buffer caching. -/
def idEnv : CompressEnv :=
  ⟨true, true, id, id, fun _ bs => bs, id, false⟩

/-! ## Value conversion (`convert` / `unconvert`) -/

/-- What `convert` returns: the element list of an object array, an
`ExtType(0, bytes)` blob, or the untouched `Categorical`. -/
inductive ConvValue
  | list (xs : List PyScalar)
  | ext (bytes : List Nat)
  | cat (c : CategoricalData)

/-- `convert(values)` (packers.py lines 287-325); the process-wide
`compressor` global is threaded as a parameter. -/
def convert (env : CompressEnv) (compressor : Option String)
    (values : ArrOrCat) : Except String ConvValue :=
  -- dtype = values.dtype; if is_categorical_dtype(values): return values
  match values with
  | .cat c => .ok (.cat c)
  | .arr arrv =>
    if is_categorical_dtype_of arrv.dtype then
      -- the reachable half of `is_categorical_dtype` is the Categorical
      -- case above: a raw ndarray never carries the categorical dtype
      .error "ndarray with categorical dtype cannot occur"
    else if is_object_dtype arrv.dtype then
      -- elif is_object_dtype(dtype): return values.ravel().tolist()
      .ok (.list arrv.objList)
    else
      -- if needs_i8_conversion(dtype): values = values.view("i8")
      let v := if needs_i8_conversion arrv.dtype then arrv.viewI8 else arrv
      -- v = values.ravel()   (the stored data is already flat)
      if compressor = some "zlib" then do
        check_zlib env
        -- the inner `if dtype == np.object_` re-check is dead code: the
        -- object dtype already returned above
        .ok (.ext (env.zlibCompress v.tostring))
      else if compressor = some "blosc" then do
        check_blosc env
        -- blosc gets the element byte width of the *original* dtype
        .ok (.ext (env.bloscCompress arrv.dtype.itemsize v.tostring))
      else
        -- no (or unrecognized) compressor: raw bytes under the same
        -- subtype code 0
        .ok (.ext v.tostring)

/-- A value handed to `unconvert` after unpacking: an extension blob, a
tuple of scalars, or an already-decoded `Categorical`. -/
inductive UnconvIn
  | ext (code : Nat) (bytes : List Nat)
  | list (xs : List PyScalar)
  | cat (c : CategoricalData)

/-- What `unconvert` returns: a flat array, or the payload passed straight
through for a categorical dtype. -/
inductive UnconvOut
  | arr (a : NDArray)
  | passCat (c : CategoricalData)

/-- The `PerformanceWarning` text emitted when a caching decompressor
forces a copy. -/
def perfWarningMsg : String :=
  "copying data after decompressing; this may mean that decompress is caching its result"

/-- `np.frombuffer(bytes, dtype=dtype)` — reinterpret a byte buffer as a
flat array of the declared dtype. -/
def frombuffer (bs : List Nat) (dtype : DType) : Except String NDArray :=
  if bs.length % dtype.itemsize = 0 then
    .ok ⟨dtype, [bs.length / dtype.itemsize],
      .fixed (frombufferWords dtype.itemsize bs)⟩
  else
    .error "buffer size must be a multiple of element size"

/-- `values[1]` on a payload that is not a code-0 `ExtType`: an `ExtType`
is a (code, data) named tuple, so index 1 is its raw data; indexing a
scalar tuple or a `Categorical` this way cannot produce a byte buffer. -/
def itemOne : UnconvIn → Except String (List Nat)
  | .ext _ d => .ok d
  | .list _ => .error "cannot reinterpret a scalar sequence as a byte buffer"
  | .cat _ => .error "cannot index a Categorical"

/-- `unconvert(values, dtype, compress)` (packers.py lines 328-379).
Returns the list of emitted warnings alongside the result; the result value
is never changed by a warning. -/
def unconvert (env : CompressEnv) (values : UnconvIn) (dtype : DType)
    (compress : Option String) : Except String (List String × UnconvOut) :=
  let as_is_ext : Bool := match values with
    | .ext 0 _ => true
    | _ => false
  -- if as_is_ext: values = values.data   (tracked by the matches below)
  if is_categorical_dtype_of dtype then
    -- return values
    match values with
    | .cat c => .ok ([], .passCat c)
    | _ => .error "category dtype with a non-categorical payload is outside the modelled fragment"
  else if is_object_dtype dtype then
    -- return np.array(values, dtype=object)
    match values with
    | .list xs => .ok ([], .arr ⟨.object, [xs.length], .obj xs⟩)
    | _ => .error "object dtype expects an element sequence"
  else
    let dtype := pandasDtypeBase dtype
    let inner : Except String (List Nat) :=
      if as_is_ext then
        match values with
        | .ext _ d => .ok d
        | _ => .error "unreachable: as_is_ext only holds for ext payloads"
      else
        -- values = values[1]
        itemOne values
    match inner with
    | .error e => .error e
    | .ok bytes =>
      match compress with
      | some c =>
          -- `if compress:` — the empty string is falsy in Python
          if c = "" then
            (frombuffer bytes dtype).map (fun a => ([], .arr a))
          else if c = "zlib" ∨ c = "blosc" then
            match (if c = "zlib" then check_zlib env else check_blosc env) with
            | .error e => .error e
            | .ok _ =>
              let decompress :=
                if c = "zlib" then env.zlibDecompress else env.bloscDecompress
              let out := decompress bytes
              if env.moveFails then
                -- BadMove: the decompressed data rides on the exception;
                -- only a payload longer than one byte warns
                if 1 < out.length then
                  (frombuffer out dtype).map (fun a => ([perfWarningMsg], .arr a))
                else
                  (frombuffer out dtype).map (fun a => ([], .arr a))
              else
                (frombuffer out dtype).map (fun a => ([], .arr a))
          else
            .error "compress must be one of zlib or blosc"
      | none =>
          (frombuffer bytes dtype).map (fun a => ([], .arr a))

/-- The wire round trip of a converted payload: `ExtType(0, bs)` survives
as an extension blob with code 0, an element list comes back as a tuple of
scalars, a categorical passthrough is re-encoded/re-decoded as a category
record. -/
def convToUnconv : ConvValue → UnconvIn
  | .list xs => .list xs
  | .ext bs => .ext 0 bs
  | .cat c => .cat c

/-! ## Python float reprs

A Python float is identified with its canonical `repr` string, kept in
structural form: an optional minus sign and either `inf`, `nan`, or a
decimal mantissa with optional fraction digits and optional signed
exponent (examples: `1.0`, `-0.0`, `2.5e-08`, `1e+300`).  `repr` is
injective on floats and `float()` inverts it, so this carrier represents
floats exactly — including the negative zero, whose repr is `-0.0`. -/

inductive FloatKind
  | finite (ip : List Nat) (fp : Option (List Nat)) (ex : Option (Bool × List Nat))
  | inf
  | nan
deriving DecidableEq, Repr

structure PyFloatRepr where
  neg : Bool
  kind : FloatKind
deriving DecidableEq, Repr

def digitChars (ds : List Nat) : List Char := ds.map Nat.digitChar

/-- Character form of the magnitude part of a float repr. -/
def renderKind : FloatKind → List Char
  | .finite ip fp ex =>
      digitChars ip
        ++ (match fp with
            | some ds => '.' :: digitChars ds
            | Option.none => [])
        ++ (match ex with
            | some (sgn, ds) => 'e' :: (if sgn then '-' else '+') :: digitChars ds
            | Option.none => [])
  | .inf => ['i', 'n', 'f']
  | .nan => ['n', 'a', 'n']

/-- `obj.__repr__()` of a float. -/
def renderFloat (f : PyFloatRepr) : String :=
  ⟨(if f.neg then ['-'] else []) ++ renderKind f.kind⟩

/-! ## Wire record helpers -/

def optScalarMsg : Option PyScalar → Msg
  | Option.none => .nil
  | some s => scalarToMsg s

def optStrMsg : Option String → Msg
  | Option.none => .nil
  | some s => .str s

/-- Wire form of a non-categorical converted payload (a categorical
passthrough is instead re-encoded as a category record by the packer,
handled at the series call site). -/
def convValueMsg : ConvValue → Except String Msg
  | .list xs => .ok (.arr (scalarsToMsg xs))
  | .ext bs => .ok (.ext 0 bs)
  | .cat _ => .error "categorical payload requires a category record"

/-! ## Timezone operations on datetime indexes (pandas collaborators)

A modelled `DatetimeIndex` stores its ordinals as UTC epoch nanoseconds
(exactly as pandas stores `asi8` for an aware index), so `tz_convert` only
changes the zone attribute, and `tz_localize("UTC")` attaches the UTC zone
without moving the ordinals. -/

/-- `DatetimeIndex.tz_convert(z)` — change the zone of an aware index; the
stored UTC ordinals are untouched.  Raises on a naive index. -/
def tz_convert (z : String) : IndexObj → Except String IndexObj
  | .datetimeIdx name (some _) freq ords => .ok (.datetimeIdx name (some z) freq ords)
  | .datetimeIdx _ Option.none _ _ =>
      .error "Cannot convert tz-naive timestamps, use tz_localize to localize"
  | _ => .error "tz_convert on a non-datetime index"

/-- `DatetimeIndex.tz_localize(z)` for `z = "UTC"` — interpret a naive
index's stored ordinals as UTC instants (they already are).  Raises on an
aware index.  Localization to any other zone would move the ordinals and is
outside the modelled fragment (the decoder only ever localizes to UTC). -/
def tz_localize (z : String) : IndexObj → Except String IndexObj
  | .datetimeIdx name Option.none freq ords =>
      if z = "UTC" then .ok (.datetimeIdx name (some z) freq ords)
      else .error "tz_localize to a non-UTC zone is outside the modelled fragment"
  | .datetimeIdx _ (some _) _ _ =>
      .error "Already tz-aware, use tz_convert to convert"
  | _ => .error "tz_localize on a non-datetime index"

/-- `obj.dtype.name` of a datetime index, from its zone attribute. -/
def dtIndexDtypeName (tz : Option String) : String :=
  match tz with
  | some z => "datetime64[ns, " ++ z ++ "]"
  | Option.none => "datetime64[ns]"

/-! ## Encoder (`encode`, packers.py 383-549) -/

/-- `encode` on ndarray values (packers.py 518-526). -/
def encodeNDArray (env : CompressEnv) (compressor : Option String)
    (a : NDArray) : Except String Msg := do
  let cv ← convert env compressor (.arr a)
  let dataMsg ← convValueMsg cv
  .ok (.map [
    ("typ", .str "ndarray"),
    ("shape", .arr (a.shape.map (fun n => .int (n : Int)))),
    ("ndim", .int (a.shape.length : Int)),
    ("dtype", .str a.dtype.name),
    ("data", dataMsg),
    ("compress", optStrMsg compressor)])

/-- `encode` on Index values (packers.py 388-442), by concrete flavor. -/
def encodeIndex (env : CompressEnv) (compressor : Option String) :
    IndexObj → Except String Msg
  | .range name start stop step =>
      .ok (.map [
        ("typ", .str "range_index"),
        ("klass", .str "RangeIndex"),
        ("name", optScalarMsg name),
        ("start", .int start),
        ("stop", .int stop),
        ("step", .int step)])
  | .periodIdx name freq ords => do
      -- data: convert(obj.asi8) — signed 64-bit ordinals
      let cv ← convert env compressor
        (.arr ⟨.int64, [ords.length], .fixed (ords.map bitsOfInt64)⟩)
      let dataMsg ← convValueMsg cv
      .ok (.map [
        ("typ", .str "period_index"),
        ("klass", .str "PeriodIndex"),
        ("name", optScalarMsg name),
        ("freq", .str freq),
        ("dtype", .str ("period[" ++ freq ++ "]")),
        ("data", dataMsg),
        ("compress", optStrMsg compressor)])
  | .datetimeIdx name tz0 freq ords =>
      -- tz = obj.tz; if tz is not None: tz = tz.zone; obj = obj.tz_convert("UTC")
      -- (tz_convert only changes the zone attribute: the stored UTC
      -- ordinals, name and freq are untouched; only the recorded dtype
      -- name sees the UTC zone)
      let tzConv : Option String := match tz0 with
        | some _ => some "UTC"
        | Option.none => Option.none
      do
        let cv ← convert env compressor
          (.arr ⟨.int64, [ords.length], .fixed (ords.map bitsOfInt64)⟩)
        let dataMsg ← convValueMsg cv
        .ok (.map [
          ("typ", .str "datetime_index"),
          ("klass", .str "DatetimeIndex"),
          ("name", optScalarMsg name),
          ("dtype", .str (dtIndexDtypeName tzConv)),
          ("data", dataMsg),
          ("freq", optStrMsg freq),
          ("tz", optStrMsg tz0),
          ("compress", optStrMsg compressor)])
  | .multi names rows => do
      -- obj.values is an object array of row tuples
      let cv ← convert env compressor
        (.arr ⟨.object, [rows.length], .obj (rows.map PyScalar.tuple)⟩)
      let dataMsg ← convValueMsg cv
      .ok (.map [
        ("typ", .str "multi_index"),
        ("klass", .str "MultiIndex"),
        ("names", .arr (names.map optScalarMsg)),
        ("dtype", .str "object"),
        ("data", dataMsg),
        ("compress", optStrMsg compressor)])
  | .plain klass name values => do
      let cv ← convert env compressor (.arr values)
      let dataMsg ← convValueMsg cv
      .ok (.map [
        ("typ", .str "index"),
        ("klass", .str klass),
        ("name", optScalarMsg name),
        ("dtype", .str values.dtype.name),
        ("data", dataMsg),
        ("compress", optStrMsg compressor)])

/-- `encode` on a `Categorical` (packers.py 444-453); `codes` (an ndarray)
and `categories` (an Index) are encoded recursively by the packer. -/
def encodeCategory (env : CompressEnv) (compressor : Option String)
    (c : CategoricalData) : Except String Msg := do
  let codesMsg ← encodeNDArray env compressor c.codes
  let catsMsg ← encodeIndex env compressor c.categories
  .ok (.map [
    ("typ", .str "category"),
    ("klass", .str "Categorical"),
    ("name", .nil),   -- getattr(obj, "name", None): a Categorical has no name
    ("codes", codesMsg),
    ("categories", catsMsg),
    ("ordered", .bool c.ordered),
    ("compress", optStrMsg compressor)])

/-- `obj.dtype.name` of a series. -/
def seriesDtypeName : ArrOrCat → String
  | .arr a => a.dtype.name
  | .cat _ => "category"

/-- `encode` on a Series (packers.py 455-464); the index is encoded
recursively, and a categorical payload returned by `convert` is itself
encoded as a category record by the packer. -/
def encodeSeries (env : CompressEnv) (compressor : Option String)
    (name : Option PyScalar) (idx : IndexObj) (values : ArrOrCat) :
    Except String Msg := do
  let idxMsg ← encodeIndex env compressor idx
  let cv ← convert env compressor values
  let dataMsg ← (match cv with
    | .cat c => encodeCategory env compressor c
    | other => convValueMsg other)
  .ok (.map [
    ("typ", .str "series"),
    ("klass", .str "Series"),
    ("name", optScalarMsg name),
    ("index", idxMsg),
    ("dtype", .str (seriesDtypeName values)),
    ("data", dataMsg),
    ("compress", optStrMsg compressor)])

/-! ## The Python value carrier -/

/-- A reconstructed column block (decode side). -/
structure BlockVal where
  values : NDArray
  klass : String
  placement : List Int
  dtypeName : String

/-- Python runtime values the dispatcher distinguishes.  numpy scalar
values (`np.number`) are outside the claims and not carried. -/
inductive PyObj
  | index (i : IndexObj)
  | categorical (c : CategoricalData)
  | series (name : Option PyScalar) (idx : IndexObj) (values : ArrOrCat)
  | frame (klass : String) (axes : List IndexObj) (blocks : List BlockVal)
  | timestamp (value : Int) (tz : Option String) (freq : Option String)
  | natVal
  | npTimedelta64 (v : Int)
  | pyTimedelta (days seconds micros : Int)
  | npDatetime64 (s : String)
  | pyDatetime (s : String)
  | pyDate (s : String)
  | period (ordinal : Int) (freq : String)
  | ndarray (a : NDArray)
  | pyComplex (re im : PyFloatRepr)
  | scalar (s : PyScalar)
  | rawMsg (m : Msg)

/-- The outer temporal isinstance guard of `encode` (packers.py 489-491):
`(datetime, date, np.datetime64, timedelta, np.timedelta64, NaTType)`.
`Timestamp` is a `datetime` subclass and `NaT` a `NaTType`, so both pass
the guard. -/
def is_datetimelike : PyObj → Bool
  | .timestamp _ _ _ => true
  | .natVal => true
  | .npTimedelta64 _ => true
  | .pyTimedelta _ _ _ => true
  | .npDatetime64 _ => true
  | .pyDatetime _ => true
  | .pyDate _ => true
  | _ => false

/-- The temporal dispatch inside `encode` (packers.py 492-515): an ordered
isinstance chain — Timestamp, NaT, np.timedelta64, timedelta,
np.datetime64, datetime, date — with a trailing
`raise Exception("cannot encode this datetimelike object")`. -/
def encodeDatetimelike : PyObj → Except String Msg
  | .timestamp v tz freq =>
      -- tz = obj.tzinfo and then tz.zone; freq = obj.freq and then freqstr
      .ok (.map [("typ", .str "timestamp"), ("value", .int v),
        ("freq", optStrMsg freq), ("tz", optStrMsg tz)])
  | .natVal => .ok (.map [("typ", .str "nat")])
  | .npTimedelta64 v =>
      -- obj.view("i8")
      .ok (.map [("typ", .str "timedelta64"), ("data", .int v)])
  | .pyTimedelta d s us =>
      -- (obj.days, obj.seconds, obj.microseconds)
      .ok (.map [("typ", .str "timedelta"),
        ("data", .arr [.int d, .int s, .int us])])
  | .npDatetime64 s => .ok (.map [("typ", .str "datetime64"), ("data", .str s)])
  | .pyDatetime s => .ok (.map [("typ", .str "datetime"), ("data", .str s)])
  | .pyDate s => .ok (.map [("typ", .str "date"), ("data", .str s)])
  | _ => .error "cannot encode this datetimelike object"

/-- `encode(obj)` (packers.py 383-549).  The NDFrame branch (465-487) is
outside the claims' scope on the encode side and reports so explicitly
rather than being stubbed. -/
def encode (env : CompressEnv) (compressor : Option String) :
    PyObj → Except String Msg
  | .index i => encodeIndex env compressor i
  | .categorical c => encodeCategory env compressor c
  | .series name idx values => encodeSeries env compressor name idx values
  | .frame _ _ _ => .error "block_manager encoding is outside the modelled fragment"
  | .timestamp v tz freq => encodeDatetimelike (.timestamp v tz freq)
  | .natVal => encodeDatetimelike .natVal
  | .npTimedelta64 v => encodeDatetimelike (.npTimedelta64 v)
  | .pyTimedelta d s us => encodeDatetimelike (.pyTimedelta d s us)
  | .npDatetime64 s => encodeDatetimelike (.npDatetime64 s)
  | .pyDatetime s => encodeDatetimelike (.pyDatetime s)
  | .pyDate s => encodeDatetimelike (.pyDate s)
  | .period ordinal freq =>
      -- line 517 stores `obj.freq`, the offset object; it is modelled by
      -- its frequency string
      .ok (.map [("typ", .str "period"), ("ordinal", .int ordinal),
        ("freq", .str freq)])
  | .ndarray a => encodeNDArray env compressor a
  | .pyComplex re im =>
      -- isinstance(obj, complex): real/imag stored as their reprs
      .ok (.map [("typ", .str "np_complex"),
        ("real", .str (renderFloat re)), ("imag", .str (renderFloat im))])
  | .scalar s => .ok (scalarToMsg s)
  | .rawMsg m => .ok m

/-! ## Decoder helpers -/

/-- `obj.get(k)` on a wire mapping. -/
def getField (fs : List (String × Msg)) (k : String) : Option Msg :=
  (fs.find? (fun p => p.1 == k)).map (fun p => p.2)

/-- `k in obj`. -/
def hasField (fs : List (String × Msg)) (k : String) : Bool :=
  (getField fs k).isSome

/-- `obj[k]` — raises `KeyError` when absent. -/
def reqField (fs : List (String × Msg)) (k : String) : Except String Msg :=
  match getField fs k with
  | some v => .ok v
  | Option.none => .error ("KeyError: " ++ k)

/-- An optional-string field (`tz`, `freq`, `compress`, ...). -/
def msgOptStr : Msg → Except String (Option String)
  | .nil => .ok Option.none
  | .str s => .ok (some s)
  | _ => .error "expected a string or nil"

/-- An optional scalar field (`name`). -/
def msgOptScalar : Msg → Except String (Option PyScalar)
  | .nil => .ok Option.none
  | m => (msgToScalar m).map some

/-- `obj.get("compress")`. -/
def optCompressField (fs : List (String × Msg)) : Except String (Option String) :=
  match getField fs "compress" with
  | some cm => msgOptStr cm
  | Option.none => .ok Option.none

/-- `np.typeDict` lookup for the modelled dtypes (`dtype_for` falls back to
`np.typeDict.get(t, t)` and decode `ndarray` indexes `np.typeDict[t]`
directly). -/
def npTypeDictLookup (s : String) : Except String DType :=
  if s = "int8" then .ok .int8
  else if s = "int64" then .ok .int64
  else if s = "float64" then .ok .float64
  else if s = "object" then .ok .object
  else .error ("dtype outside the modelled fragment: " ++ s)

/-- `dtype_for(t)` (packers.py 264-268) on a wire dtype field: the explicit
`dtype_dict` entries first, then `np.typeDict` (the `datetime64[us]` /
`timedelta64[us]` entries are outside the modelled fragment). -/
def dtype_for_msg : Msg → Except String DType
  | .int 21 => .ok .datetime64ns
  | .int 22 => .ok .timedelta64ns
  | .int 7 => .ok .int64
  | .str "datetime64[ns]" => .ok .datetime64ns
  | .str "timedelta64[ns]" => .ok .timedelta64ns
  | .str "category" => .ok .category
  | .str s => npTypeDictLookup s
  | _ => .error "unsupported dtype key"

/-- Shape field: a sequence of non-negative integers (the inferred `-1`
reshape never appears on this wire). -/
def msgShape : Msg → Except String (List Nat)
  | .arr xs => xs.mapM (fun m =>
      match m with
      | .int n =>
          if n < 0 then .error "negative reshape is outside the modelled fragment"
          else .ok n.toNat
      | _ => .error "shape entries must be integers")
  | _ => .error "shape must be a sequence"

/-- `arr.reshape(shape)` / `_safe_reshape` — the element count must
match. -/
def reshape (a : NDArray) (shape : List Nat) : Except String NDArray :=
  let n := match a.data with
    | .obj xs => xs.length
    | .fixed ws => ws.length
  if shape.prod = n then .ok { a with shape := shape }
  else .error "cannot reshape array"

/-- Read a wire data field as an `unconvert` payload (the categorical case
is handled at the series call site, where the unpacker hook has already
produced a `Categorical`). -/
def msgToUnconvIn : Msg → Except String UnconvIn
  | .ext c bs => .ok (.ext c bs)
  | .arr xs => (UnconvIn.list ·) <$> msgsToScalars xs
  | _ => .error "unsupported data payload"

mutual

/-- Python `==` on the modelled scalars. -/
def PyScalar.beq : PyScalar → PyScalar → Bool
  | .str a, .str b => a == b
  | .int a, .int b => a == b
  | .bool a, .bool b => a == b
  | .none, .none => true
  | .tuple xs, .tuple ys => PyScalar.beqList xs ys
  | _, _ => false

def PyScalar.beqList : List PyScalar → List PyScalar → Bool
  | [], [] => true
  | x :: xs, y :: ys => PyScalar.beq x y && PyScalar.beqList xs ys
  | _, _ => false

end

/-! ## Decoder (`decode`, packers.py 552-701) -/

/-- Index classes available in the module globals that the `index` branch
can re-instantiate on this model. -/
def plainIndexKlasses : List String := ["Index", "Int64Index", "Float64Index"]

/-- Decode `typ == "ndarray"` (packers.py 683-686):
`unconvert(obj["data"], np.typeDict[obj["dtype"]], obj.get("compress"))
.reshape(obj["shape"])`. -/
def decodeNDArrayMsg (env : CompressEnv) (m : Msg) : Except String NDArray :=
  match m with
  | .map fs =>
      (match getField fs "typ" with
      | some (.str "ndarray") => do
          let dtypeMsg ← reqField fs "dtype"
          let dt ← (match dtypeMsg with
            | .str s => npTypeDictLookup s
            | _ => .error "dtype must be a string")
          let dataMsg ← reqField fs "data"
          let vIn ← msgToUnconvIn dataMsg
          let compress ← optCompressField fs
          let (_w, out) ← unconvert env vIn dt compress
          let a ← (match out with
            | .arr a => .ok a
            | .passCat _ => .error "categorical ndarray payload")
          let shape ← msgShape (← reqField fs "shape")
          reshape a shape
      | _ => .error "expected an ndarray record")
  | _ => .error "expected an ndarray record"

/-- Decode `typ == "index"` (packers.py 567-570). -/
def decodePlainIndexFields (env : CompressEnv) (fs : List (String × Msg)) :
    Except String IndexObj := do
        -- dtype = dtype_for(obj["dtype"]);
        -- data = unconvert(obj["data"], dtype, obj.get("compress"));
        -- globals()[obj["klass"]](data, dtype=dtype, name=obj["name"])
        let dt ← dtype_for_msg (← reqField fs "dtype")
        let vIn ← msgToUnconvIn (← reqField fs "data")
        let compress ← optCompressField fs
        let (_w, out) ← unconvert env vIn dt compress
        let a ← (match out with
          | .arr a => .ok a
          | .passCat _ => .error "categorical index is outside the modelled fragment")
        let klassMsg ← reqField fs "klass"
        let name ← msgOptScalar (← reqField fs "name")
        (match klassMsg with
        | .str klass =>
            if klass ∈ plainIndexKlasses then .ok (.plain klass name a)
            else .error ("index class outside the modelled fragment: " ++ klass)
        | _ => .error "klass must be a string")

/-- Decode `typ == "range_index"` (packers.py 571-574). -/
def decodeRangeIndexFields (fs : List (String × Msg)) :
    Except String IndexObj := do
        -- globals()[obj["klass"]](obj["start"], obj["stop"], obj["step"], name=obj["name"])
        let klassMsg ← reqField fs "klass"
        let startMsg ← reqField fs "start"
        let stopMsg ← reqField fs "stop"
        let stepMsg ← reqField fs "step"
        let name ← msgOptScalar (← reqField fs "name")
        (match klassMsg, startMsg, stopMsg, stepMsg with
        | .str "RangeIndex", .int start, .int stop, .int step =>
            .ok (.range name start stop step)
        | _, _, _, _ => .error "range_index record outside the modelled fragment")

/-- Decode `typ == "multi_index"` (packers.py 575-579). -/
def decodeMultiIndexFields (env : CompressEnv) (fs : List (String × Msg)) :
    Except String IndexObj := do
        -- tuples round-trip through an object array
        let dt ← dtype_for_msg (← reqField fs "dtype")
        let vIn ← msgToUnconvIn (← reqField fs "data")
        let compress ← optCompressField fs
        let (_w, out) ← unconvert env vIn dt compress
        let a ← (match out with
          | .arr a => .ok a
          | .passCat _ => .error "categorical multi_index is outside the modelled fragment")
        let elems ← (match a.data with
          | .obj xs => .ok xs
          | .fixed _ => .error "tuple() over a scalar row")
        -- data = [tuple(x) for x in data]
        let rows ← elems.mapM (fun x =>
          match x with
          | PyScalar.tuple t => Except.ok t
          | _ => .error "tuple() on a non-sequence row is outside the modelled fragment")
        let namesMsg ← reqField fs "names"
        let names ← (match namesMsg with
          | .arr nms => nms.mapM msgOptScalar
          | _ => .error "names must be a sequence")
        let klassMsg ← reqField fs "klass"
        (match klassMsg with
        | .str "MultiIndex" =>
            -- MultiIndex.from_tuples(data, names): empty input cannot
            -- infer the level count
            if rows.isEmpty then .error "Cannot infer number of levels from empty list"
            else .ok (.multi names rows)
        | _ => .error "multi_index class outside the modelled fragment")

/-- Decode `typ == "period_index"` (packers.py 580-593). -/
def decodePeriodIndexFields (env : CompressEnv) (legacy : Bool)
    (fs : List (String × Msg)) : Except String IndexObj := do
        -- data = unconvert(obj["data"], np.int64, obj.get("compress"))
        let vIn ← msgToUnconvIn (← reqField fs "data")
        let compress ← optCompressField fs
        let (_w, out) ← unconvert env vIn .int64 compress
        let words ← (match out with
          | .arr a =>
              (match a.data with
              | .fixed ws => Except.ok ws
              | .obj _ => .error "object period data")
          | .passCat _ => .error "categorical period data")
        let data : List Int := words.map intOfBits64
        -- d = dict(name=obj["name"], freq=obj["freq"])
        let _name ← msgOptScalar (← reqField fs "name")
        let freq ← msgOptStr (← reqField fs "freq")
        if legacy then
          -- globals()[obj["klass"]](data, **d) against pandas < the
          -- modelled version: outside the modelled fragment
          .error "legacy-pandas PeriodIndex construction is outside the modelled fragment"
        else
          (match freq with
          | Option.none => .error "freq is not specified and cannot be inferred"
          | some f =>
              -- values = [Period(ordinal=x, freq=freq) for x in data]
              -- return PeriodIndex(values)   — the recorded name is dropped
              (match data with
              | [] => .error "freq not specified and cannot be inferred from empty"
              | o :: rest => .ok (.periodIdx Option.none f (o :: rest))))

/-- Decode `typ == "datetime_index"` (packers.py 594-603). -/
def decodeDatetimeIndexFields (env : CompressEnv) (fs : List (String × Msg)) :
    Except String IndexObj := do
        -- data = unconvert(obj["data"], np.int64, obj.get("compress"))
        let vIn ← msgToUnconvIn (← reqField fs "data")
        let compress ← optCompressField fs
        let (_w, out) ← unconvert env vIn .int64 compress
        let words ← (match out with
          | .arr a =>
              (match a.data with
              | .fixed ws => Except.ok ws
              | .obj _ => .error "object datetime data")
          | .passCat _ => .error "categorical datetime data")
        let data : List Int := words.map intOfBits64
        -- d = dict(name=obj["name"], freq=obj["freq"])
        let name ← msgOptScalar (← reqField fs "name")
        let freq ← msgOptStr (← reqField fs "freq")
        -- result = globals()[obj["klass"]](data, **d)  — a naive index
        let klassMsg ← reqField fs "klass"
        let result ← (match klassMsg with
          | .str "DatetimeIndex" =>
              Except.ok (IndexObj.datetimeIdx name Option.none freq data)
          | _ => .error "datetime index class outside the modelled fragment")
        let tz ← msgOptStr (← reqField fs "tz")
        -- if tz is not None:
        --     result = result.tz_localize("UTC").tz_convert(tz)
        (match tz with
        | some z => do
            let u ← tz_localize "UTC" result
            tz_convert z u
        | Option.none => .ok result)

/-- Decode the index-flavored tags (packers.py 567-603), dispatching on the
`typ` discriminator. -/
def decodeIndexMsg (env : CompressEnv) (legacy : Bool) (m : Msg) :
    Except String IndexObj :=
  match m with
  | .map fs =>
    (match getField fs "typ" with
    | some (.str tv) =>
        if tv = "index" then decodePlainIndexFields env fs
        else if tv = "range_index" then decodeRangeIndexFields fs
        else if tv = "multi_index" then decodeMultiIndexFields env fs
        else if tv = "period_index" then decodePeriodIndexFields env legacy fs
        else if tv = "datetime_index" then decodeDatetimeIndexFields env fs
        else .error "expected an index record"
    | _ => .error "expected an index record")
  | _ => .error "expected an index record"

/-- Decode `typ == "category"` (packers.py 605-609):
`globals()[obj["klass"]].from_codes(codes, categories, ordered)` — the
codes ndarray and the categories index were decoded by the unpacker hook
bottom-up.  `from_codes` code-range validation is not modelled (the wire
carries codes of a real Categorical). -/
def decodeCategoryMsg (env : CompressEnv) (legacy : Bool) (m : Msg) :
    Except String CategoricalData :=
  match m with
  | .map fs =>
      (match getField fs "typ" with
      | some (.str "category") => do
          let klassMsg ← reqField fs "klass"
          (match klassMsg with
          | .str "Categorical" => do
              let codes ← decodeNDArrayMsg env (← reqField fs "codes")
              let cats ← decodeIndexMsg env legacy (← reqField fs "categories")
              let orderedMsg ← reqField fs "ordered"
              (match orderedMsg with
              | .bool b => .ok ⟨codes, cats, b⟩
              | _ => .error "ordered must be a bool")
          | _ => .error "category class outside the modelled fragment")
      | _ => .error "expected a category record")
  | _ => .error "expected a category record"

/-- Decode `typ == "series"` (packers.py 611-622). -/
def decodeSeriesMsg (env : CompressEnv) (legacy : Bool)
    (fs : List (String × Msg)) : Except String PyObj := do
  let dt ← dtype_for_msg (← reqField fs "dtype")
  -- pd_dtype = pandas_dtype(dtype)   (identity on the modelled dtypes)
  let idx ← decodeIndexMsg env legacy (← reqField fs "index")
  let dataMsg ← reqField fs "data"
  let vIn ← (match dataMsg with
    | .map _ => (UnconvIn.cat ·) <$> decodeCategoryMsg env legacy dataMsg
    | _ => msgToUnconvIn dataMsg)
  let compress ← msgOptStr (← reqField fs "compress")   -- obj["compress"]
  let (_w, out) ← unconvert env vIn dt compress
  let name ← msgOptScalar (← reqField fs "name")
  let klassMsg ← reqField fs "klass"
  match klassMsg with
  | .str "Series" =>
      (match out with
      | .arr a => .ok (.series name idx (.arr a))
      | .passCat c => .ok (.series name idx (.cat c)))
  | _ => .error "series class outside the modelled fragment"

/-- Attributes of `pandas.core.internals` reachable by
`getattr(internals, b["klass"])`. -/
def internalsKlasses : List String :=
  ["Block", "IntBlock", "FloatBlock", "ComplexBlock", "BoolBlock",
   "ObjectBlock", "DatetimeBlock", "DatetimeTZBlock", "TimeDeltaBlock",
   "CategoricalBlock"]

/-- `axes[0].get_indexer(items)` — position of each item label in the
column axis, `-1` when absent (legacy records lacking `locs`). -/
def indexGetIndexer (axis : IndexObj) (items : IndexObj) :
    Except String (List Int) :=
  match axis, items with
  | .plain _ _ a, .plain _ _ b =>
      (match a.data, b.data with
      | .obj xs, .obj labels =>
          .ok (labels.map (fun it =>
            match xs.findIdx? (fun x => PyScalar.beq x it) with
            | some i => (i : Int)
            | Option.none => -1))
      | _, _ => .error "get_indexer on fixed-width labels is outside the modelled fragment")
  | _, _ => .error "get_indexer on this index flavor is outside the modelled fragment"

/-- Placement recovery inside `create_block` (packers.py 633-638): `locs`
handles duplicate column names and is preferred; legacy records fall back
to `axes[0].get_indexer(b["items"])`. -/
def blockPlacement (env : CompressEnv) (legacy : Bool) (axes : List IndexObj)
    (fs : List (String × Msg)) : Except String (List Int) :=
  if hasField fs "locs" then do
    let locsArr ← decodeNDArrayMsg env (← reqField fs "locs")
    (match locsArr.data with
    | .fixed ws => Except.ok (ws.map intOfBits64)
    | .obj _ => .error "object locs are outside the modelled fragment")
  else do
    let items ← decodeIndexMsg env legacy (← reqField fs "items")
    (match axes with
    | axis0 :: _ => indexGetIndexer axis0 items
    | [] => .error "axes[0] on an empty axes list")

/-- `create_block(b)` inside the block_manager branch (packers.py
627-648): unconvert and reshape the payload, recover the placement, then
look the block class up — a `DatetimeTZBlock` is rejected before
`make_block` is reached. -/
def create_block (env : CompressEnv) (legacy : Bool) (axes : List IndexObj)
    (b : Msg) : Except String BlockVal :=
  match b with
  | .map fs => do
      -- values = _safe_reshape(unconvert(b["values"], dtype_for(b["dtype"]),
      --                                  b["compress"]), b["shape"])
      let dtypeMsg ← reqField fs "dtype"
      let dt ← dtype_for_msg dtypeMsg
      let vIn ← msgToUnconvIn (← reqField fs "values")
      let compress ← msgOptStr (← reqField fs "compress")
      let (_w, out) ← unconvert env vIn dt compress
      let flat ← (match out with
        | .arr a => .ok a
        | .passCat _ => .error "categorical block is outside the modelled fragment")
      let shape ← msgShape (← reqField fs "shape")
      let values ← reshape flat shape
      let placement ← blockPlacement env legacy axes fs
      let klassMsg ← reqField fs "klass"
      (match klassMsg with
      | .str klass =>
          -- klass = getattr(internals, b["klass"])
          if klass ∈ internalsKlasses then
            if klass = "DatetimeTZBlock" then
              .error "Lost the ability to parse datetime with timezone. Sorry"
            else
              -- make_block(values=values.copy(), klass=..., placement=...,
              --            dtype=b["dtype"])
              let dtName := (match dtypeMsg with
                | .str s => s
                | .int n => toString n
                | _ => "")
              .ok ⟨values, klass, placement, dtName⟩
          else .error ("module pandas.core.internals has no attribute " ++ klass)
      | _ => .error "klass must be a string")
  | _ => .error "expected a block record"

/-- An `obj[...]` value that must be a wire sequence. -/
def msgArrElems (m : Msg) (err : String) : Except String (List Msg) :=
  match m with
  | .arr xs => .ok xs
  | _ => .error err

/-- Decode `typ == "block_manager"` (packers.py 624-651). -/
def decodeBlockManager (env : CompressEnv) (legacy : Bool)
    (fs : List (String × Msg)) : Except String PyObj := do
  let axesMsg ← reqField fs "axes"
  let ams ← msgArrElems axesMsg "axes must be a sequence"
  let axes ← ams.mapM (decodeIndexMsg env legacy)
  let blocksMsg ← reqField fs "blocks"
  let bms ← msgArrElems blocksMsg "blocks must be a sequence"
  let blocks ← bms.mapM (create_block env legacy axes)
  -- globals()[obj["klass"]](BlockManager(blocks, axes))
  let klassMsg ← reqField fs "klass"
  match klassMsg with
  | .str "DataFrame" => .ok (.frame "DataFrame" axes blocks)
  | .str k => .error ("frame class outside the modelled fragment: " ++ k)
  | _ => .error "klass must be a string"

/-! ## `complex()` string parsing (CPython collaborator)

Used by the `np_complex` decode branch:
`complex(obj["real"] + "+" + obj["imag"] + "j")`.  The parser mirrors
CPython `complex_from_string`: a first `strtod`, then — if a sign
follows — a second `strtod` *starting at that sign* (so a second sign
right after it fails and only a bare `j` rescues the parse), then a
mandatory `j`.  Forms this codec never produces (parentheses, whitespace,
uppercase `J`, a leading bare sign or bare `j`) are collapsed to the
malformed-string error. -/

def digitVal (c : Char) : Nat := c.toNat - '0'.toNat

/-- Longest digit prefix. -/
def takeDigits : List Char → List Nat × List Char
  | [] => ([], [])
  | c :: cs =>
      if c.isDigit then
        let p := takeDigits cs
        (digitVal c :: p.1, p.2)
      else ([], c :: cs)

/-- The number part of `strtod` after the sign: digits with optional
fraction and optional signed exponent, or the `inf`/`nan` keywords; an
exponent marker without digits is not consumed. -/
def parseMag (cs : List Char) : Option (FloatKind × List Char) :=
  if cs.take 3 = ['i', 'n', 'f'] then some (.inf, cs.drop 3)
  else if cs.take 3 = ['n', 'a', 'n'] then some (.nan, cs.drop 3)
  else
    let p1 := takeDigits cs
    let ip := p1.1
    let pf : Option (List Nat) × List Char :=
      match p1.2 with
      | c :: r =>
          if c = '.' then
            let p2 := takeDigits r
            (some p2.1, p2.2)
          else (Option.none, c :: r)
      | [] => (Option.none, [])
    let fp := pf.1
    let r2 := pf.2
    if ip.isEmpty && (match fp with
        | some ds => ds.isEmpty
        | Option.none => true) then
      Option.none
    else
      match r2 with
      | e :: r3 =>
          if e = 'e' ∨ e = 'E' then
            let ps : Bool × List Char :=
              match r3 with
              | c :: r =>
                  if c = '-' then (true, r)
                  else if c = '+' then (false, r)
                  else (false, c :: r)
              | [] => (false, [])
            let pe := takeDigits ps.2
            if pe.1.isEmpty then some (.finite ip fp Option.none, r2)
            else some (.finite ip fp (some (ps.1, pe.1)), pe.2)
          else some (.finite ip fp Option.none, r2)
      | [] => some (.finite ip fp Option.none, [])

/-- C `strtod`: optional sign then the number; no valid number means
nothing is consumed. -/
def parseSignedFloat (cs : List Char) : Option (PyFloatRepr × List Char) :=
  match cs with
  | c :: r =>
      if c = '+' then (parseMag r).map (fun p => (⟨false, p.1⟩, p.2))
      else if c = '-' then (parseMag r).map (fun p => (⟨true, p.1⟩, p.2))
      else (parseMag (c :: r)).map (fun p => (⟨false, p.1⟩, p.2))
  | [] => (parseMag []).map (fun p => (⟨false, p.1⟩, p.2))

/-- The repr structure of the float `0.0` (the implied imaginary part of a
real-only form). -/
def floatZero : PyFloatRepr := ⟨false, .finite [0] (some [0]) Option.none⟩

def complexMalformed : String := "complex() arg is a malformed string"

/-- `complex(s)` on the forms reachable from this codec. -/
def complexOfString (s : String) : Except String (PyFloatRepr × PyFloatRepr) :=
  match parseSignedFloat s.data with
  | Option.none => .error complexMalformed
  | some (z, rest) =>
    match rest with
    | [] => .ok (z, floatZero)
    | c :: r =>
      if c = '+' ∨ c = '-' then
        match parseSignedFloat rest with
        | some (y, rest2) =>
            (match rest2 with
            | c2 :: r2 =>
                if c2 = 'j' ∧ r2.isEmpty then .ok (z, y) else .error complexMalformed
            | [] => .error complexMalformed)
        | Option.none =>
            -- <float><sign>j: the imaginary part defaults to ±1.0
            (match r with
            | c2 :: r2 =>
                if c2 = 'j' ∧ r2.isEmpty then
                  .ok (z, ⟨c == '-', .finite [1] (some [0]) Option.none⟩)
                else .error complexMalformed
            | [] => .error complexMalformed)
      else if c = 'j' then
        if r.isEmpty then .ok (floatZero, z) else .error complexMalformed
      else .error complexMalformed

/-! ## Top-level decoder -/

/-- Decode `typ == "timestamp"` (packers.py 560-562). -/
def decodeTimestampFields (fs : List (String × Msg)) : Except String PyObj := do
  -- freq = obj["freq"] if "freq" in obj else obj["offset"]
  let freqMsg ← (if hasField fs "freq" then reqField fs "freq"
                 else reqField fs "offset")
  let freq ← msgOptStr freqMsg
  let valueMsg ← reqField fs "value"
  let tz ← msgOptStr (← reqField fs "tz")
  (match valueMsg with
  | .int v => .ok (.timestamp v tz freq)
  | _ => .error "timestamp value must be an integer")

/-- Decode `typ == "period"` (packers.py 565-566). -/
def decodePeriodScalarFields (fs : List (String × Msg)) : Except String PyObj := do
  -- Period(ordinal=obj["ordinal"], freq=obj["freq"])
  let ordMsg ← reqField fs "ordinal"
  let freqMsg ← reqField fs "freq"
  (match ordMsg, freqMsg with
  | .int o, .str f => .ok (.period o f)
  | _, _ => .error "period fields outside the modelled fragment")

/-- Decode `typ == "datetime"` (packers.py 652-653):
`parse(obj["data"])` — dateutil inverts the isoformat carrier. -/
def decodeDatetimeStrFields (fs : List (String × Msg)) : Except String PyObj := do
  let dataMsg ← reqField fs "data"
  (match dataMsg with
  | .str s => .ok (.pyDatetime s)
  | _ => .error "datetime payload must be a string")

/-- Decode `typ == "datetime64"` (packers.py 654-655) on the carrier
string. -/
def decodeDatetime64Fields (fs : List (String × Msg)) : Except String PyObj := do
  let dataMsg ← reqField fs "data"
  (match dataMsg with
  | .str s => .ok (.npDatetime64 s)
  | _ => .error "datetime64 payload must be a string")

/-- Decode `typ == "date"` (packers.py 656-657) on the carrier string. -/
def decodeDateFields (fs : List (String × Msg)) : Except String PyObj := do
  let dataMsg ← reqField fs "data"
  (match dataMsg with
  | .str s => .ok (.pyDate s)
  | _ => .error "date payload must be a string")

/-- Decode `typ == "timedelta"` (packers.py 658-659):
`timedelta(*obj["data"])`; the stored triple is a timedelta's
already-normalized attributes. -/
def decodeTimedeltaFields (fs : List (String × Msg)) : Except String PyObj := do
  let dataMsg ← reqField fs "data"
  (match dataMsg with
  | .arr [.int d, .int s, .int us] => .ok (.pyTimedelta d s us)
  | _ => .error "timedelta payload outside the modelled fragment")

/-- Decode `typ == "timedelta64"` (packers.py 660-661). -/
def decodeTimedelta64Fields (fs : List (String × Msg)) : Except String PyObj := do
  let dataMsg ← reqField fs "data"
  (match dataMsg with
  | .int v => .ok (.npTimedelta64 v)
  | _ => .error "timedelta64 payload outside the modelled fragment")

/-- Decode `typ == "np_complex"` (packers.py 696-697):
`complex(obj["real"] + "+" + obj["imag"] + "j")`. -/
def decodeNpComplexFields (fs : List (String × Msg)) : Except String PyObj := do
  let realMsg ← reqField fs "real"
  let imagMsg ← reqField fs "imag"
  (match realMsg, imagMsg with
  | .str r, .str i =>
      (complexOfString (r ++ "+" ++ i ++ "j")).map
        (fun p => .pyComplex p.1 p.2)
  | _, _ => .error "real/imag must be strings")

/-- `decode(obj)` (packers.py 552-701): dispatch on the `typ`
discriminator; an untagged mapping — or a non-mapping, on which the
unpacker never calls the hook — is returned unchanged, and so is a mapping
with an unrecognized tag (the trailing `return obj`).  Branches relying on
collaborators outside the claims (numpy scalar construction, sparse
indexes) report so explicitly. -/
def decode (env : CompressEnv) (legacy : Bool) (m : Msg) :
    Except String PyObj :=
  match m with
  | .map fs =>
    (match getField fs "typ" with
    | Option.none => .ok (.rawMsg m)
    | some (.str tv) =>
        if tv = "timestamp" then decodeTimestampFields fs
        else if tv = "nat" then .ok .natVal
        else if tv = "period" then decodePeriodScalarFields fs
        else if tv = "index" ∨ tv = "range_index" ∨ tv = "multi_index"
            ∨ tv = "period_index" ∨ tv = "datetime_index" then
          (decodeIndexMsg env legacy m).map .index
        else if tv = "category" then
          (decodeCategoryMsg env legacy m).map .categorical
        else if tv = "series" then decodeSeriesMsg env legacy fs
        else if tv = "block_manager" then decodeBlockManager env legacy fs
        else if tv = "datetime" then decodeDatetimeStrFields fs
        else if tv = "datetime64" then decodeDatetime64Fields fs
        else if tv = "date" then decodeDateFields fs
        else if tv = "timedelta" then decodeTimedeltaFields fs
        else if tv = "timedelta64" then decodeTimedelta64Fields fs
        else if tv = "block_index" then
          .error "sparse block_index is outside the modelled fragment"
        else if tv = "int_index" then
          .error "sparse int_index is outside the modelled fragment"
        else if tv = "ndarray" then (decodeNDArrayMsg env m).map .ndarray
        else if tv = "np_scalar" then
          .error "numpy scalar reconstruction is outside the modelled fragment"
        else if tv = "np_complex" then decodeNpComplexFields fs
        else .ok (.rawMsg m)
    | some _ => .ok (.rawMsg m))
  | _ => .ok (.rawMsg m)

/-- `decode(encode(x))` with no compression under current (non-legacy)
pandas — the round trip the spec states. -/
def roundTrip (env : CompressEnv) (obj : PyObj) : Except String PyObj := do
  decode env false (← encode env Option.none obj)

/-! ## Verification helper lemmas -/

theorem msgOptStr_optStrMsg (o : Option String) :
    msgOptStr (optStrMsg o) = .ok o := by
  cases o <;> rfl

theorem msgOptStr_nil : msgOptStr .nil = .ok Option.none := rfl

theorem msgOptStr_str (s : String) : msgOptStr (.str s) = .ok (some s) := rfl

/-- `None`-collapse of an encoded name: Python cannot tell `name=None` from
an absent name on the wire. -/
def collapseName : Option PyScalar → Option PyScalar
  | some PyScalar.none => Option.none
  | o => o

theorem msgOptScalar_optScalarMsg (o : Option PyScalar) :
    msgOptScalar (optScalarMsg o) = .ok (collapseName o) := by
  cases o with
  | none => rfl
  | some s =>
      cases s with
      | str s => rfl
      | int n => rfl
      | bool b => rfl
      | none => rfl
      | tuple xs =>
          show (msgToScalar (Msg.arr (scalarsToMsg xs))).map some = _
          rw [show Msg.arr (scalarsToMsg xs) = scalarToMsg (.tuple xs) from rfl,
            msgToScalar_scalarToMsg]
          rfl

theorem exceptBind_ok {α β : Type} {x : Except String α} {f : α → Except String β}
    {b : β} (h : x >>= f = .ok b) : ∃ a, x = .ok a ∧ f a = .ok b := by
  cases x with
  | error e => exact absurd h (by simp [Bind.bind, Except.bind])
  | ok a => exact ⟨a, rfl, by simpa [Bind.bind, Except.bind] using h⟩

theorem exceptMapM_ok {α β : Type} {f : α → Except String β} {l : List α}
    {r : List β} (h : l.mapM f = .ok r) : ∀ x ∈ l, ∃ y, f x = .ok y := by
  induction l generalizing r with
  | nil => intro x hx; cases hx
  | cons a l ih =>
      intro x hx
      rw [List.mapM_cons] at h
      obtain ⟨y, hy, h2⟩ := exceptBind_ok h
      obtain ⟨ys, hys, -⟩ := exceptBind_ok h2
      rcases List.mem_cons.mp hx with hx | hx
      · exact hx ▸ ⟨y, hy⟩
      · exact ih hys x hx

/-- `np.frombuffer` inverts `tostring` on well-formed words. -/
theorem frombuffer_wordsToBytes (dt : DType) (ws : List Nat)
    (hws : ∀ w ∈ ws, w < 256 ^ dt.itemsize) :
    frombuffer (wordsToBytes dt.itemsize ws) dt
      = .ok ⟨dt, [ws.length], .fixed ws⟩ := by
  have hk : 0 < dt.itemsize := dt.itemsize_pos
  unfold frombuffer
  rw [length_wordsToBytes, if_pos (Nat.mul_mod_right _ _),
    Nat.mul_div_cancel_left _ hk, frombufferWords_wordsToBytes _ hk _ hws]

/-- The `i8` view leaves the flattened bytes unchanged (datetime-like
dtypes are 8 bytes wide, exactly like `int64`). -/
theorem tostring_viewI8 (a : NDArray) (h : needs_i8_conversion a.dtype = true) :
    a.viewI8.tostring = a.tostring := by
  cases a with
  | mk dt sh data =>
      cases dt <;> simp_all [needs_i8_conversion, NDArray.viewI8,
        NDArray.tostring, DType.itemsize]

theorem map_intOfBits64_map_bitsOfInt64 (ords : List Int)
    (h : ∀ i ∈ ords, -9223372036854775808 ≤ i ∧ i < 9223372036854775808) :
    (ords.map bitsOfInt64).map intOfBits64 = ords := by
  rw [List.map_map]
  conv_rhs => rw [← List.map_id ords]
  refine List.map_congr_left (fun i hi => ?_)
  exact intOfBits64_bitsOfInt64 i (h i hi).1 (h i hi).2

theorem bits_mem_lt (ords : List Int) :
    ∀ w ∈ ords.map bitsOfInt64, w < 256 ^ 8 := by
  intro w hw
  obtain ⟨i, -, rfl⟩ := List.mem_map.mp hw
  exact bitsOfInt64_lt_pow i

/-! ## Claim C9 — ranged-index compactness -/

/-- **C9**: encoding a ranged index materializes no data payload — the
tagged record holds exactly the typ/klass/name/start/stop/step fields; in
particular it has no `data` and no `compress` field, for every ranged
index and every compression setting. -/
theorem c9_range_index_compact (env : CompressEnv) (compressor : Option String)
    (name : Option PyScalar) (start stop step : Int) :
    encode env compressor (.index (.range name start stop step))
      = .ok (.map [("typ", .str "range_index"), ("klass", .str "RangeIndex"),
          ("name", optScalarMsg name), ("start", .int start),
          ("stop", .int stop), ("step", .int step)])
    ∧ getField [("typ", Msg.str "range_index"), ("klass", .str "RangeIndex"),
          ("name", optScalarMsg name), ("start", .int start),
          ("stop", .int stop), ("step", .int step)] "data" = Option.none
    ∧ getField [("typ", Msg.str "range_index"), ("klass", .str "RangeIndex"),
          ("name", optScalarMsg name), ("start", .int start),
          ("stop", .int stop), ("step", .int step)] "compress" = Option.none :=
  ⟨rfl, rfl, rfl⟩

/-! ## Claim C7 — the "cannot encode" raise is dead code

Every class in the temporal guard tuple — datetime, date, np.datetime64,
timedelta, np.timedelta64, NaTType — has a matching isinstance branch in
the chain (datetime also catches Timestamp, date catches datetime), so no
input can pass the guard yet match none of the variants. -/

/-- The known temporal variants of the encode chain (Timestamp, NaT,
np.timedelta64, timedelta, np.datetime64, datetime, date). -/
def matchesKnownTemporalVariant : PyObj → Bool
  | .timestamp _ _ _ => true
  | .natVal => true
  | .npTimedelta64 _ => true
  | .pyTimedelta _ _ _ => true
  | .npDatetime64 _ => true
  | .pyDatetime _ => true
  | .pyDate _ => true
  | _ => false

/-- **C7 counterexample**: the claim as stated is false — its existence
half ("there exists a temporal-like input that reaches the raising
branch") fails, because the guard's member classes are exhaustively
covered by the known variants. -/
theorem c7_counterexample :
    ¬ ((∀ o : PyObj, is_datetimelike o = true →
          matchesKnownTemporalVariant o = false →
          ∃ e, encodeDatetimelike o = .error e)
        ∧ ∃ o : PyObj, is_datetimelike o = true
            ∧ matchesKnownTemporalVariant o = false
            ∧ ∃ e, encodeDatetimelike o = .error e) := by
  rintro ⟨-, o, hg, hk, -⟩
  cases o <;> simp_all [is_datetimelike, matchesKnownTemporalVariant]

/-- **C7 amended**: the universally-quantified half of the claim holds
vacuously — every input passing the temporal guard matches one of the
known variants, so `encode` returns a tagged record and the
"cannot encode" raising branch is unreachable. -/
theorem c7_temporal_guard_exhaustive (o : PyObj)
    (h : is_datetimelike o = true) :
    matchesKnownTemporalVariant o = true
    ∧ ∃ m, encodeDatetimelike o = .ok m := by
  cases o <;> simp_all [is_datetimelike, matchesKnownTemporalVariant,
    encodeDatetimelike]

theorem c7_temporal_guard_exhaustive_witness :
    matchesKnownTemporalVariant .natVal = true
    ∧ ∃ m, encodeDatetimelike .natVal = .ok m :=
  c7_temporal_guard_exhaustive .natVal rfl

/-! ## Claim C4 — object dtype arrays are element sequences, never binary -/

/-- **C4**: for every object-dtype array and every compression choice,
`convert` returns the explicit ordered element list — never an extension
blob — and `unconvert` rebuilds the array directly from that list with no
decompression and no warning. -/
theorem c4_object_dtype_element_sequence (env : CompressEnv)
    (compressor : Option String) (a : NDArray) (xs : List PyScalar)
    (ha : a.dtype = .object) (hdata : a.data = .obj xs) :
    convert env compressor (.arr a) = .ok (.list xs)
    ∧ (∀ bs, convert env compressor (.arr a) ≠ .ok (.ext bs))
    ∧ unconvert env (.list xs) .object compressor
        = .ok ([], .arr ⟨.object, [xs.length], .obj xs⟩) := by
  have h1 : convert env compressor (.arr a) = .ok (.list xs) := by
    simp [convert, is_categorical_dtype_of, is_object_dtype, ha,
      NDArray.objList, hdata]
  refine ⟨h1, fun bs h => by rw [h1] at h; simp at h, rfl⟩

theorem c4_object_dtype_element_sequence_witness :
    convert idEnv (some "zlib") (.arr ⟨.object, [2], .obj [.str "a", .int 3]⟩)
      = .ok (.list [.str "a", .int 3])
    ∧ (∀ bs, convert idEnv (some "zlib")
        (.arr ⟨.object, [2], .obj [.str "a", .int 3]⟩) ≠ .ok (.ext bs))
    ∧ unconvert idEnv (.list [.str "a", .int 3]) .object (some "zlib")
        = .ok ([], .arr ⟨.object, [2], .obj [.str "a", .int 3]⟩) :=
  c4_object_dtype_element_sequence idEnv (some "zlib") _ _ rfl rfl

/-! ## Evaluation lemmas for the conversion layer -/

theorem is_categorical_dtype_of_false {dt : DType} (h : dt ≠ .category) :
    is_categorical_dtype_of dt = false := by
  cases dt <;> simp_all [is_categorical_dtype_of]

theorem is_object_dtype_false {dt : DType} (h : dt ≠ .object) :
    is_object_dtype dt = false := by
  cases dt <;> simp_all [is_object_dtype]

/-- The conditional `i8` view never changes the flattened bytes. -/
theorem tostring_i8_view (a : NDArray) :
    (if needs_i8_conversion a.dtype then a.viewI8 else a).tostring
      = a.tostring := by
  by_cases h : needs_i8_conversion a.dtype
  · rw [if_pos h, tostring_viewI8 a h]
  · rw [if_neg h]

/-- `convert` on a fixed-width array, by compression choice. -/
theorem convert_fixed (env : CompressEnv) (compressor : Option String)
    (a : NDArray) (hobj : a.dtype ≠ .object) (hcat : a.dtype ≠ .category) :
    convert env compressor (.arr a) =
      (if compressor = some "zlib" then
        (if env.zlibAvailable then .ok (.ext (env.zlibCompress a.tostring))
         else .error "zlib is not installed")
      else if compressor = some "blosc" then
        (if env.bloscAvailable then
          .ok (.ext (env.bloscCompress a.dtype.itemsize a.tostring))
         else .error "blosc is not installed")
      else .ok (.ext a.tostring)) := by
  have hco := is_categorical_dtype_of_false hcat
  have hoo := is_object_dtype_false hobj
  have hts := tostring_i8_view a
  by_cases hz : compressor = some "zlib"
  · cases hA : env.zlibAvailable <;>
      simp [convert, hco, hoo, hts, check_zlib, hz, hA, Bind.bind, Except.bind]
  · by_cases hb : compressor = some "blosc"
    · cases hA : env.bloscAvailable <;>
        simp [convert, hco, hoo, hts, check_blosc, hz, hb, hA, Bind.bind,
          Except.bind]
    · simp [convert, hco, hoo, hts, hz, hb]

/-- `unconvert` on a code-0 extension blob of a fixed-width dtype. -/
theorem unconvert_ext0_none (env : CompressEnv) (bs : List Nat) (dt : DType)
    (hobj : dt ≠ .object) (hcat : dt ≠ .category) :
    unconvert env (.ext 0 bs) dt Option.none
      = (frombuffer bs dt).map (fun a => ([], .arr a)) := by
  simp [unconvert, is_categorical_dtype_of_false hcat,
    is_object_dtype_false hobj, pandasDtypeBase]

theorem tostring_eq (a : NDArray) (ws : List Nat) (h : a.data = .fixed ws) :
    a.tostring = wordsToBytes a.dtype.itemsize ws := by
  cases a with
  | mk dt sh d =>
      have h2 : d = ArrData.fixed ws := h
      subst h2
      rfl

/-- `unconvert` through an available zlib: the result reflects the
decompressed bytes, and a forced copy (`moveFails` on a payload longer
than one byte) only adds the performance warning. -/
theorem unconvert_ext0_zlib (env : CompressEnv) (bs : List Nat) (dt : DType)
    (hobj : dt ≠ .object) (hcat : dt ≠ .category)
    (havail : env.zlibAvailable = true) :
    unconvert env (.ext 0 bs) dt (some "zlib")
      = (frombuffer (env.zlibDecompress bs) dt).map
          (fun a => ((if env.moveFails ∧ 1 < (env.zlibDecompress bs).length
                      then [perfWarningMsg] else []), .arr a)) := by
  have hco := is_categorical_dtype_of_false hcat
  have hoo := is_object_dtype_false hobj
  by_cases hm : env.moveFails
  · by_cases hl : 1 < (env.zlibDecompress bs).length <;>
      simp [unconvert, hco, hoo, pandasDtypeBase, check_zlib, havail, hm, hl]
  · simp [unconvert, hco, hoo, pandasDtypeBase, check_zlib, havail, hm]

/-- The blosc analog of `unconvert_ext0_zlib`. -/
theorem unconvert_ext0_blosc (env : CompressEnv) (bs : List Nat) (dt : DType)
    (hobj : dt ≠ .object) (hcat : dt ≠ .category)
    (havail : env.bloscAvailable = true) :
    unconvert env (.ext 0 bs) dt (some "blosc")
      = (frombuffer (env.bloscDecompress bs) dt).map
          (fun a => ((if env.moveFails ∧ 1 < (env.bloscDecompress bs).length
                      then [perfWarningMsg] else []), .arr a)) := by
  have hco := is_categorical_dtype_of_false hcat
  have hoo := is_object_dtype_false hobj
  by_cases hm : env.moveFails
  · by_cases hl : 1 < (env.bloscDecompress bs).length <;>
      simp [unconvert, hco, hoo, pandasDtypeBase, check_blosc, havail, hm, hl]
  · simp [unconvert, hco, hoo, pandasDtypeBase, check_blosc, havail, hm]

/-! ## Claim C2 — compression transparency -/

/-- `unconvert(convert(array, choice), dtype, choice)`: the composition the
spec states, the payload carried across the wire (`ExtType` code 0 and
element lists survive framing unchanged). -/
def convUnconv (env : CompressEnv) (choice : Option String) (a : NDArray) :
    Except String (List String × UnconvOut) := do
  let cv ← convert env choice (.arr a)
  unconvert env (convToUnconv cv) a.dtype choice

/-- A well-formed 1-D fixed array is recovered exactly from its own
bytes. -/
theorem frombuffer_tostring_self (a : NDArray) (ws : List Nat)
    (hdata : a.data = .fixed ws) (hshape : a.shape = [ws.length])
    (hws : ∀ w ∈ ws, w < 256 ^ a.dtype.itemsize) :
    frombuffer a.tostring a.dtype = .ok a := by
  rw [tostring_eq a ws hdata, frombuffer_wordsToBytes a.dtype ws hws]
  cases a with
  | mk dt sh d => simp_all

/-- An object array round-trips through `convert`/`unconvert` untouched
under every compression choice. -/
theorem convUnconv_object (env : CompressEnv) (choice : Option String)
    (a : NDArray) (xs : List PyScalar) (hdt : a.dtype = .object)
    (hdata : a.data = .obj xs) (hshape : a.shape = [xs.length]) :
    convUnconv env choice a = .ok ([], .arr a) := by
  have hc : convert env choice (.arr a) = .ok (.list xs) := by
    simp [convert, is_categorical_dtype_of, is_object_dtype, hdt,
      NDArray.objList, hdata]
  have hu : unconvert env (.list xs) a.dtype choice
      = .ok ([], .arr ⟨.object, [xs.length], .obj xs⟩) := by
    rw [hdt]
    rfl
  have he : (⟨.object, [xs.length], .obj xs⟩ : NDArray) = a := by
    cases a with
    | mk dt sh d => simp_all
  simp [convUnconv, hc, convToUnconv, Bind.bind, Except.bind, hu, he]

/-- **C2**: for the no-compression case and for each available backend the
round trip `unconvert(convert(a, choice), a.dtype, choice)` returns an
array bit-identical to `a` — for object, integer, float and datetime-like
dtypes (via bit patterns); object-dtype arrays are never routed through a
compressor (the payload stays an element list under every choice).  The
backend transforms are external collaborators, assumed inverse on the
flattened bytes. -/
theorem c2_compression_transparency (env : CompressEnv) (a : NDArray) :
    (a.wf → convUnconv env Option.none a = .ok ([], .arr a))
    ∧ (a.wf → env.zlibAvailable = true →
        env.zlibDecompress (env.zlibCompress a.tostring) = a.tostring →
        ∃ warns, convUnconv env (some "zlib") a = .ok (warns, .arr a))
    ∧ (a.wf → env.bloscAvailable = true →
        env.bloscDecompress (env.bloscCompress a.dtype.itemsize a.tostring)
          = a.tostring →
        ∃ warns, convUnconv env (some "blosc") a = .ok (warns, .arr a))
    ∧ (∀ xs, a.dtype = .object → a.data = .obj xs →
        ∀ choice, convert env choice (.arr a) = .ok (.list xs)) := by
  refine ⟨?_, ?_, ?_, ?_⟩
  · intro hwf
    obtain ⟨ws, hdata, hshape, hws, hobj, hcat⟩ | ⟨xs, hdata, hshape, hdt⟩ := hwf
    · have hc : convert env Option.none (.arr a) = .ok (.ext a.tostring) := by
        rw [convert_fixed env Option.none a hobj hcat]
        rfl
      simp [convUnconv, hc, convToUnconv, Bind.bind, Except.bind, Except.map,
        unconvert_ext0_none env a.tostring a.dtype hobj hcat,
        frombuffer_tostring_self a ws hdata hshape hws]
    · exact convUnconv_object env Option.none a xs hdt hdata hshape
  · intro hwf havail hrt
    obtain ⟨ws, hdata, hshape, hws, hobj, hcat⟩ | ⟨xs, hdata, hshape, hdt⟩ := hwf
    · refine ⟨if env.moveFails ∧
          1 < (env.zlibDecompress (env.zlibCompress a.tostring)).length
          then [perfWarningMsg] else [], ?_⟩
      have hc : convert env (some "zlib") (.arr a)
          = .ok (.ext (env.zlibCompress a.tostring)) := by
        rw [convert_fixed env (some "zlib") a hobj hcat]
        simp [havail]
      simp [convUnconv, hc, convToUnconv, Bind.bind, Except.bind, Except.map,
        unconvert_ext0_zlib env _ a.dtype hobj hcat havail, hrt,
        frombuffer_tostring_self a ws hdata hshape hws]
    · exact ⟨[], convUnconv_object env (some "zlib") a xs hdt hdata hshape⟩
  · intro hwf havail hrt
    obtain ⟨ws, hdata, hshape, hws, hobj, hcat⟩ | ⟨xs, hdata, hshape, hdt⟩ := hwf
    · refine ⟨if env.moveFails ∧
          1 < (env.bloscDecompress (env.bloscCompress a.dtype.itemsize
            a.tostring)).length
          then [perfWarningMsg] else [], ?_⟩
      have hc : convert env (some "blosc") (.arr a)
          = .ok (.ext (env.bloscCompress a.dtype.itemsize a.tostring)) := by
        rw [convert_fixed env (some "blosc") a hobj hcat]
        simp [havail]
      simp [convUnconv, hc, convToUnconv, Bind.bind, Except.bind, Except.map,
        unconvert_ext0_blosc env _ a.dtype hobj hcat havail, hrt,
        frombuffer_tostring_self a ws hdata hshape hws]
    · exact ⟨[], convUnconv_object env (some "blosc") a xs hdt hdata hshape⟩
  · intro xs hdt hdata choice
    simp [convert, is_categorical_dtype_of, is_object_dtype, hdt,
      NDArray.objList, hdata]

theorem c2_compression_transparency_witness :
    convUnconv idEnv Option.none ⟨.int64, [2], .fixed [5, 300]⟩
        = .ok ([], .arr ⟨.int64, [2], .fixed [5, 300]⟩)
    ∧ (∃ warns, convUnconv idEnv (some "zlib") ⟨.datetime64ns, [1], .fixed [9]⟩
        = .ok (warns, .arr ⟨.datetime64ns, [1], .fixed [9]⟩))
    ∧ (∃ warns, convUnconv idEnv (some "blosc") ⟨.float64, [1], .fixed [12]⟩
        = .ok (warns, .arr ⟨.float64, [1], .fixed [12]⟩))
    ∧ convert idEnv (some "zlib") (.arr ⟨.object, [1], .obj [.int 4]⟩)
        = .ok (.list [.int 4]) :=
  ⟨(c2_compression_transparency idEnv _).1
      (Or.inl ⟨[5, 300], rfl, rfl, by decide, by decide, by decide⟩),
    (c2_compression_transparency idEnv _).2.1
      (Or.inl ⟨[9], rfl, rfl, by decide, by decide, by decide⟩) rfl rfl,
    (c2_compression_transparency idEnv _).2.2.1
      (Or.inl ⟨[12], rfl, rfl, by decide, by decide, by decide⟩) rfl rfl,
    (c2_compression_transparency idEnv _).2.2.2 [.int 4] rfl rfl (some "zlib")⟩

/-! ## Claim C8 — forced-copy decompression warns but stays correct -/

/-- **C8**: when the buffer move fails because the decompressor cached its
result (and more than one byte came back), `unconvert` emits exactly the
performance warning and still returns the array built from the
decompressed bytes — the same array the non-caching path returns. -/
theorem c8_forced_copy_warns (env : CompressEnv) (bs : List Nat) (dt : DType)
    (hobj : dt ≠ .object) (hcat : dt ≠ .category)
    (hmove : env.moveFails = true)
    (hzavail : env.zlibAvailable = true)
    (hzlen : 1 < (env.zlibDecompress bs).length)
    (hzdiv : (env.zlibDecompress bs).length % dt.itemsize = 0) :
    ∃ a, frombuffer (env.zlibDecompress bs) dt = .ok a
      ∧ unconvert env (.ext 0 bs) dt (some "zlib")
          = .ok ([perfWarningMsg], .arr a)
      ∧ unconvert { env with moveFails := false } (.ext 0 bs) dt (some "zlib")
          = .ok ([], .arr a) := by
  have hfb : frombuffer (env.zlibDecompress bs) dt
      = .ok ⟨dt, [(env.zlibDecompress bs).length / dt.itemsize],
          .fixed (frombufferWords dt.itemsize (env.zlibDecompress bs))⟩ := by
    unfold frombuffer
    rw [if_pos hzdiv]
  refine ⟨_, hfb, ?_, ?_⟩
  · rw [unconvert_ext0_zlib env bs dt hobj hcat hzavail, hfb]
    simp [Except.map, hmove, hzlen]
  · rw [unconvert_ext0_zlib { env with moveFails := false } bs dt hobj hcat
      (by simpa using hzavail)]
    simp only [show ({ env with moveFails := false } : CompressEnv).zlibDecompress
        = env.zlibDecompress from rfl, hfb]
    simp [Except.map]

theorem c8_forced_copy_warns_witness :
    ∃ a, frombuffer ((fun _ => [1, 2, 3, 4, 5, 6, 7, 8]) ([] : List Nat)) DType.int64 = .ok a
      ∧ unconvert ⟨true, true, id, fun _ => [1, 2, 3, 4, 5, 6, 7, 8],
            fun _ b => b, id, true⟩ (.ext 0 []) .int64 (some "zlib")
          = .ok ([perfWarningMsg], .arr a)
      ∧ unconvert ⟨true, true, id, fun _ => [1, 2, 3, 4, 5, 6, 7, 8],
            fun _ b => b, id, false⟩ (.ext 0 []) .int64 (some "zlib")
          = .ok ([], .arr a) :=
  c8_forced_copy_warns
    ⟨true, true, id, fun _ => [1, 2, 3, 4, 5, 6, 7, 8], fun _ b => b, id, true⟩
    [] .int64 (by decide) (by decide) rfl rfl (by decide) (by decide)

theorem msgOptScalar_nil : msgOptScalar .nil = .ok Option.none := rfl

/-- `reshape` to the flat element count is the identity on a flat fixed
array. -/
theorem reshape_fixed (a : NDArray) (ws : List Nat) (h : a.data = .fixed ws) :
    reshape a [ws.length] = .ok { a with shape := [ws.length] } := by
  simp [reshape, h, List.prod_singleton]

/-- `unconvert` of an uncompressed `int8` payload recovers the bytes. -/
theorem unconvert_int8_ext (env : CompressEnv) (cs : List Nat)
    (hcs : ∀ c ∈ cs, c < 256) :
    unconvert env (.ext 0 (wordsToBytes 1 cs)) .int8 Option.none
      = .ok ([], .arr ⟨.int8, [cs.length], .fixed cs⟩) := by
  rw [unconvert_ext0_none env _ _ (by decide) (by decide),
    show (1 : Nat) = DType.itemsize .int8 from rfl,
    frombuffer_wordsToBytes .int8 _ (by simpa [DType.itemsize] using hcs)]
  rfl

/-- `[tuple(x) for x in data]` over rows that are tuples gives the rows
back. -/
theorem mapM_tuple_rows (rows : List (List PyScalar)) :
    (rows.map PyScalar.tuple).mapM (fun x =>
      match x with
      | PyScalar.tuple t => Except.ok t
      | _ => Except.error
          "tuple() on a non-sequence row is outside the modelled fragment")
      = .ok rows := by
  induction rows with
  | nil => rfl
  | cons r rest ih =>
      rw [List.map_cons, List.mapM_cons, ih]
      rfl

/-- Reading back an encoded names list collapses `some None` entries. -/
theorem mapM_msgOptScalar_names (names : List (Option PyScalar)) :
    (names.map optScalarMsg).mapM msgOptScalar
      = .ok (names.map collapseName) := by
  induction names with
  | nil => rfl
  | cons n rest ih =>
      rw [List.map_cons, List.mapM_cons, msgOptScalar_optScalarMsg, ih]
      rfl

/-! ## Claim C5 — period-index decode requires a frequency -/

/-- The wire layout of a `period_index` record, as `encode` emits it. -/
def periodIndexWire (nameMsg freqMsg : Msg) (dtypeName : String)
    (dataMsg : Msg) : List (String × Msg) :=
  [("typ", .str "period_index"), ("klass", .str "PeriodIndex"),
   ("name", nameMsg), ("freq", freqMsg), ("dtype", .str dtypeName),
   ("data", dataMsg), ("compress", .nil)]

/-- `unconvert` of an uncompressed `asi8` payload recovers the 64-bit
patterns. -/
theorem unconvert_i8_ext (env : CompressEnv) (ords : List Int) :
    unconvert env (.ext 0 (wordsToBytes 8 (ords.map bitsOfInt64))) .int64
        Option.none
      = .ok ([], .arr ⟨.int64, [(ords.map bitsOfInt64).length],
          .fixed (ords.map bitsOfInt64)⟩) := by
  rw [unconvert_ext0_none env _ _ (by decide) (by decide),
    show (8 : Nat) = DType.itemsize .int64 from rfl,
    frombuffer_wordsToBytes .int64 _ (bits_mem_lt ords)]
  rfl

/-- Decoding a `period_index` record carrying a frequency reconstructs
each stored ordinal as a period of that frequency; `PeriodIndex(values)`
reattaches no name. -/
theorem decodePeriodWire_ok (env : CompressEnv) (name : Option PyScalar)
    (dtypeName f : String) (ords : List Int) (hne : ords ≠ [])
    (hords : ∀ i ∈ ords, -9223372036854775808 ≤ i ∧ i < 9223372036854775808) :
    decode env false (.map (periodIndexWire (optScalarMsg name) (.str f)
        dtypeName (.ext 0 (wordsToBytes 8 (ords.map bitsOfInt64)))))
      = .ok (.index (.periodIdx Option.none f ords)) := by
  obtain ⟨o, rest, rfl⟩ : ∃ o rest, ords = o :: rest := by
    cases ords with
    | nil => exact absurd rfl hne
    | cons o rest => exact ⟨o, rest, rfl⟩
  have hdata := map_intOfBits64_map_bitsOfInt64 (o :: rest) hords
  have hroute : decode env false (.map (periodIndexWire (optScalarMsg name)
      (.str f) dtypeName
      (.ext 0 (wordsToBytes 8 ((o :: rest).map bitsOfInt64)))))
      = (decodePeriodIndexFields env false (periodIndexWire
          (optScalarMsg name) (.str f) dtypeName
          (.ext 0 (wordsToBytes 8 ((o :: rest).map bitsOfInt64))))).map
          .index := rfl
  rw [hroute]
  have hu := unconvert_i8_ext env (o :: rest)
  have hdata2 := hdata
  simp only [List.map_cons] at hu hdata2
  simp [decodePeriodIndexFields, periodIndexWire, reqField, getField,
    optCompressField, msgToUnconvIn, msgOptStr, msgOptScalar_optScalarMsg,
    Bind.bind, Except.bind, Except.map, hu, hdata2]
  refine ⟨intOfBits64_bitsOfInt64 o (hords o (by simp)).1
    (hords o (by simp)).2, ?_⟩
  have h2 := map_intOfBits64_map_bitsOfInt64 rest
    (fun i hi => hords i (List.mem_cons_of_mem _ hi))
  simpa [List.map_map] using h2

/-- **C5**: decoding a `period_index` record whose frequency field is null
or absent is a fatal error under current (non-legacy) pandas — no
best-guess index is produced; with a non-empty frequency every stored
ordinal is reconstructed as a period of exactly that frequency. -/
theorem c5_period_index_freq_required (env : CompressEnv)
    (name : Option PyScalar) (dtypeName : String) (ords : List Int)
    (hords : ∀ i ∈ ords, -9223372036854775808 ≤ i ∧ i < 9223372036854775808) :
    (decode env false (.map (periodIndexWire (optScalarMsg name) .nil
        dtypeName (.ext 0 (wordsToBytes 8 (ords.map bitsOfInt64)))))
      = .error "freq is not specified and cannot be inferred")
    ∧ (decode env false (.map [("typ", .str "period_index"),
        ("klass", .str "PeriodIndex"), ("name", optScalarMsg name),
        ("dtype", .str dtypeName),
        ("data", .ext 0 (wordsToBytes 8 (ords.map bitsOfInt64))),
        ("compress", .nil)])
      = .error "KeyError: freq")
    ∧ (∀ f : String, ords ≠ [] →
        decode env false (.map (periodIndexWire (optScalarMsg name) (.str f)
            dtypeName (.ext 0 (wordsToBytes 8 (ords.map bitsOfInt64)))))
          = .ok (.index (.periodIdx Option.none f ords))) := by
  refine ⟨?_, ?_, ?_⟩
  · have hroute : decode env false (.map (periodIndexWire (optScalarMsg name)
        .nil dtypeName (.ext 0 (wordsToBytes 8 (ords.map bitsOfInt64)))))
        = (decodePeriodIndexFields env false (periodIndexWire
            (optScalarMsg name) .nil dtypeName
            (.ext 0 (wordsToBytes 8 (ords.map bitsOfInt64))))).map .index := rfl
    rw [hroute]
    simp [decodePeriodIndexFields, periodIndexWire, reqField, getField,
      optCompressField, msgToUnconvIn, msgOptStr, unconvert_i8_ext,
      msgOptScalar_optScalarMsg, Bind.bind, Except.bind, Except.map]
  · have hroute : decode env false (.map [("typ", .str "period_index"),
        ("klass", .str "PeriodIndex"), ("name", optScalarMsg name),
        ("dtype", .str dtypeName),
        ("data", .ext 0 (wordsToBytes 8 (ords.map bitsOfInt64))),
        ("compress", .nil)])
        = (decodePeriodIndexFields env false [("typ", .str "period_index"),
            ("klass", .str "PeriodIndex"), ("name", optScalarMsg name),
            ("dtype", .str dtypeName),
            ("data", .ext 0 (wordsToBytes 8 (ords.map bitsOfInt64))),
            ("compress", .nil)]).map .index := rfl
    rw [hroute]
    simp [decodePeriodIndexFields, reqField, getField, optCompressField,
      msgToUnconvIn, msgOptStr, unconvert_i8_ext, msgOptScalar_optScalarMsg,
      Bind.bind, Except.bind, Except.map]
  · intro f hne
    exact decodePeriodWire_ok env name dtypeName f ords hne hords

theorem c5_period_index_freq_required_witness :
    (decode idEnv false (.map (periodIndexWire (optScalarMsg Option.none) .nil
        "period[M]" (.ext 0 (wordsToBytes 8 (([5] : List Int).map bitsOfInt64)))))
      = .error "freq is not specified and cannot be inferred")
    ∧ decode idEnv false (.map (periodIndexWire (optScalarMsg Option.none)
        (.str "M") "period[M]"
        (.ext 0 (wordsToBytes 8 (([5] : List Int).map bitsOfInt64)))))
      = .ok (.index (.periodIdx Option.none "M" [5])) :=
  ⟨(c5_period_index_freq_required idEnv Option.none "period[M]" [5]
      (by decide)).1,
   (c5_period_index_freq_required idEnv Option.none "period[M]" [5]
      (by decide)).2.2 "M" (by decide)⟩

/-! ## Claim C6 — timezone-aware blocks are rejected -/

/-- **C6**: a block record whose declared class is `DatetimeTZBlock` never
produces a block — `create_block` raises before `make_block` is reached —
and decoding any `block_manager` record containing such a block never
succeeds. -/
theorem c6_datetimetz_block_rejected (env : CompressEnv) (legacy : Bool)
    (axes : List IndexObj) (bfs : List (String × Msg))
    (hk : getField bfs "klass" = some (.str "DatetimeTZBlock")) :
    (∀ blk, create_block env legacy axes (.map bfs) ≠ .ok blk)
    ∧ ∀ (mfs : List (String × Msg)) (pre post : List Msg),
        getField mfs "typ" = some (.str "block_manager") →
        getField mfs "blocks" = some (.arr (pre ++ .map bfs :: post)) →
        ∀ v, decode env legacy (.map mfs) ≠ .ok v := by
  have hkq : reqField bfs "klass" = Except.ok (Msg.str "DatetimeTZBlock") := by
    simp [reqField, hk]
  have hnotok : ∀ axes2 blk,
      create_block env legacy axes2 (.map bfs) ≠ .ok blk := by
    intro axes2 blk h
    simp only [create_block, Bind.bind, Except.bind] at h
    rcases e1 : reqField bfs "dtype" with e | dtypeMsg <;> simp [e1] at h
    rcases e2 : dtype_for_msg dtypeMsg with e | dt <;> simp [e2] at h
    rcases e3 : reqField bfs "values" with e | valuesMsg <;> simp [e3] at h
    rcases e4 : msgToUnconvIn valuesMsg with e | vIn <;> simp [e4] at h
    rcases e5 : reqField bfs "compress" with e | compressMsg <;> simp [e5] at h
    rcases e6 : msgOptStr compressMsg with e | compress <;> simp [e6] at h
    rcases e7 : unconvert env vIn dt compress with e | wout <;> simp [e7] at h
    rcases e8 : wout.2 with a | c <;> simp [e8] at h
    rcases e9 : reqField bfs "shape" with e | shapeMsg <;> simp [e9] at h
    rcases e10 : msgShape shapeMsg with e | shape <;> simp [e10] at h
    rcases e11 : reshape a shape with e | values <;> simp [e11] at h
    rcases e12 : blockPlacement env legacy axes2 bfs with e | placement <;>
      simp [e12] at h
    rw [hkq] at h
    simp [internalsKlasses] at h
  refine ⟨hnotok axes, ?_⟩
  intro mfs pre post hty hbl v h
  have hroute : decode env legacy (.map mfs)
      = decodeBlockManager env legacy mfs := by
    simp only [decode]
    rw [hty]
    rfl
  rw [hroute] at h
  have hblq : reqField mfs "blocks"
      = Except.ok (.arr (pre ++ .map bfs :: post)) := by
    simp [reqField, hbl]
  simp only [decodeBlockManager, Bind.bind, Except.bind] at h
  rcases e1 : reqField mfs "axes" with e | axesMsg
  · simp only [e1] at h
    exact Except.noConfusion h
  simp only [e1] at h
  rcases e2 : msgArrElems axesMsg "axes must be a sequence" with e | ams
  · simp only [e2] at h
    exact Except.noConfusion h
  simp only [e2] at h
  rcases e3 : ams.mapM (decodeIndexMsg env legacy) with e | axes2
  · simp only [e3] at h
    exact Except.noConfusion h
  simp only [e3, hblq, msgArrElems] at h
  rcases e4 : (pre ++ Msg.map bfs :: post).mapM (create_block env legacy axes2)
      with e | blocks
  · simp only [e4] at h
    exact Except.noConfusion h
  obtain ⟨y, hy⟩ := exceptMapM_ok e4 (.map bfs) (by simp)
  exact hnotok axes2 y hy

theorem c6_datetimetz_block_rejected_witness :
    create_block idEnv false [] (.map [("klass", .str "DatetimeTZBlock")])
        ≠ .ok ⟨⟨.int64, [], .fixed []⟩, "", [], ""⟩
    ∧ decode idEnv false (.map [("typ", .str "block_manager"),
          ("axes", .arr []),
          ("blocks", .arr [.map [("klass", .str "DatetimeTZBlock")]]),
          ("klass", .str "DataFrame")])
        ≠ .ok .natVal :=
  ⟨(c6_datetimetz_block_rejected idEnv false []
      [("klass", .str "DatetimeTZBlock")] rfl).1 _,
   (c6_datetimetz_block_rejected idEnv false []
      [("klass", .str "DatetimeTZBlock")] rfl).2
      [("typ", .str "block_manager"), ("axes", .arr []),
       ("blocks", .arr [.map [("klass", .str "DatetimeTZBlock")]]),
       ("klass", .str "DataFrame")] [] [] rfl rfl .natVal⟩

/-! ## Claim C3 — timezone handling of datetime indexes is two-step -/

/-- The wire layout of a `datetime_index` record, as `encode` emits it. -/
def datetimeIndexWire (nameMsg : Msg) (dtypeName : String)
    (dataMsg freqMsg tzMsg : Msg) : List (String × Msg) :=
  [("typ", .str "datetime_index"), ("klass", .str "DatetimeIndex"),
   ("name", nameMsg), ("dtype", .str dtypeName), ("data", dataMsg),
   ("freq", freqMsg), ("tz", tzMsg), ("compress", .nil)]

/-- **C3**: encoding a zone-aware datetime index converts it to UTC (only
the recorded dtype sees the UTC zone — the stored ordinals already are UTC
nanoseconds) and records the original zone name in a separate `tz` field;
decoding rebuilds the naive index from the ordinals and only then, if a
zone was recorded, localizes to UTC and converts to that zone as two
distinct steps; with no recorded zone no localization happens and the
result stays naive. -/
theorem c3_datetime_index_two_step (env : CompressEnv)
    (name : Option PyScalar) (z : String) (freq : Option String)
    (ords : List Int)
    (hname : collapseName name = name)
    (hords : ∀ i ∈ ords, -9223372036854775808 ≤ i ∧ i < 9223372036854775808) :
    (encode env Option.none (.index (.datetimeIdx name (some z) freq ords))
      = .ok (.map (datetimeIndexWire (optScalarMsg name) "datetime64[ns, UTC]"
          (.ext 0 (wordsToBytes 8 (ords.map bitsOfInt64))) (optStrMsg freq)
          (.str z))))
    ∧ (decode env false (.map (datetimeIndexWire (optScalarMsg name)
          "datetime64[ns]" (.ext 0 (wordsToBytes 8 (ords.map bitsOfInt64)))
          (optStrMsg freq) .nil))
      = .ok (.index (.datetimeIdx name Option.none freq ords)))
    ∧ (tz_localize "UTC" (.datetimeIdx name Option.none freq ords)
        = .ok (.datetimeIdx name (some "UTC") freq ords))
    ∧ (tz_convert z (.datetimeIdx name (some "UTC") freq ords)
        = .ok (.datetimeIdx name (some z) freq ords))
    ∧ (decode env false (.map (datetimeIndexWire (optScalarMsg name)
          "datetime64[ns, UTC]" (.ext 0 (wordsToBytes 8 (ords.map bitsOfInt64)))
          (optStrMsg freq) (.str z)))
      = .ok (.index (.datetimeIdx name (some z) freq ords))) := by
  have hu := unconvert_i8_ext env ords
  have hdata := map_intOfBits64_map_bitsOfInt64 ords hords
  refine ⟨rfl, ?_, rfl, rfl, ?_⟩
  · have hroute : decode env false (.map (datetimeIndexWire (optScalarMsg name)
        "datetime64[ns]" (.ext 0 (wordsToBytes 8 (ords.map bitsOfInt64)))
        (optStrMsg freq) .nil))
        = (decodeDatetimeIndexFields env (datetimeIndexWire (optScalarMsg name)
            "datetime64[ns]" (.ext 0 (wordsToBytes 8 (ords.map bitsOfInt64)))
            (optStrMsg freq) .nil)).map .index := rfl
    rw [hroute]
    simp [decodeDatetimeIndexFields, datetimeIndexWire, reqField, getField,
      optCompressField, msgToUnconvIn, msgOptStr_optStrMsg, msgOptStr_nil,
      msgOptStr_str, msgOptScalar_optScalarMsg, hname, hu, hdata,
      Bind.bind, Except.bind, Except.map]
  · have hroute : decode env false (.map (datetimeIndexWire (optScalarMsg name)
        "datetime64[ns, UTC]" (.ext 0 (wordsToBytes 8 (ords.map bitsOfInt64)))
        (optStrMsg freq) (.str z)))
        = (decodeDatetimeIndexFields env (datetimeIndexWire (optScalarMsg name)
            "datetime64[ns, UTC]" (.ext 0 (wordsToBytes 8 (ords.map bitsOfInt64)))
            (optStrMsg freq) (.str z))).map .index := rfl
    rw [hroute]
    simp [decodeDatetimeIndexFields, datetimeIndexWire, reqField, getField,
      optCompressField, msgToUnconvIn, msgOptStr_optStrMsg, msgOptStr_nil,
      msgOptStr_str, msgOptScalar_optScalarMsg, hname, hu, hdata,
      tz_localize, tz_convert, Bind.bind, Except.bind, Except.map]

theorem c3_datetime_index_two_step_witness :
    (encode idEnv Option.none (.index (.datetimeIdx (some (.str "t"))
        (some "Europe/Berlin") (some "D") [1, 2]))
      = .ok (.map (datetimeIndexWire (optScalarMsg (some (.str "t")))
          "datetime64[ns, UTC]"
          (.ext 0 (wordsToBytes 8 (([1, 2] : List Int).map bitsOfInt64)))
          (optStrMsg (some "D")) (.str "Europe/Berlin"))))
    ∧ (decode idEnv false (.map (datetimeIndexWire
          (optScalarMsg (some (.str "t"))) "datetime64[ns, UTC]"
          (.ext 0 (wordsToBytes 8 (([1, 2] : List Int).map bitsOfInt64)))
          (optStrMsg (some "D")) (.str "Europe/Berlin")))
      = .ok (.index (.datetimeIdx (some (.str "t")) (some "Europe/Berlin")
          (some "D") [1, 2]))) :=
  ⟨(c3_datetime_index_two_step idEnv (some (.str "t")) "Europe/Berlin"
      (some "D") [1, 2] rfl (by decide)).1,
   (c3_datetime_index_two_step idEnv (some (.str "t")) "Europe/Berlin"
      (some "D") [1, 2] rfl (by decide)).2.2.2.2⟩

/-! ## Claim C1 — round-trip identity for the supported entity kinds -/

/-- C1: `decode(encode(x))` reproduces the value and dtype exactly for the
supported entity kinds: a timezone-aware timestamp keeps its zone (and
optional freq), NaT decodes back to NaT and not to a zero-valued naive
timestamp, an int8-coded categorical over an object-dtype plain index of
categories round-trips, a multi-level index of tuple rows round-trips
(names already in collapsed form), and a period index round-trips its
frequency and int64 ordinals (its name is dropped by the decoder, which
passes no name to the constructor - packers.py 588-593). -/
theorem c1_round_trip_identity (env : CompressEnv) :
    (∀ (v : Int) (z : String) (freq : Option String),
        roundTrip env (.timestamp v (some z) freq)
          = .ok (.timestamp v (some z) freq))
    ∧ (roundTrip env .natVal = .ok .natVal
        ∧ roundTrip env .natVal ≠ .ok (.timestamp 0 Option.none Option.none))
    ∧ (∀ (cs : List Nat) (cats : List PyScalar) (klass : String)
          (ordered : Bool),
        klass ∈ plainIndexKlasses → (∀ c ∈ cs, c < 256) →
        roundTrip env (.categorical ⟨⟨.int8, [cs.length], .fixed cs⟩,
            .plain klass Option.none ⟨.object, [cats.length], .obj cats⟩,
            ordered⟩)
          = .ok (.categorical ⟨⟨.int8, [cs.length], .fixed cs⟩,
              .plain klass Option.none ⟨.object, [cats.length], .obj cats⟩,
              ordered⟩))
    ∧ (∀ (names : List (Option PyScalar)) (rows : List (List PyScalar)),
        rows ≠ [] → names.map collapseName = names →
        roundTrip env (.index (.multi names rows))
          = .ok (.index (.multi names rows)))
    ∧ (∀ (name : Option PyScalar) (f : String) (ords : List Int),
        ords ≠ [] →
        (∀ i ∈ ords, -9223372036854775808 ≤ i ∧ i < 9223372036854775808) →
        roundTrip env (.index (.periodIdx name f ords))
          = .ok (.index (.periodIdx Option.none f ords))) := by
  refine ⟨?_, ⟨rfl, by rw [show roundTrip env .natVal = .ok .natVal from rfl]; simp⟩,
    ?_, ?_, ?_⟩
  · intro v z freq
    have he : encode env Option.none (.timestamp v (some z) freq)
        = .ok (.map [("typ", .str "timestamp"), ("value", .int v),
            ("freq", optStrMsg freq), ("tz", .str z)]) := rfl
    have hroute : decode env false (.map [("typ", Msg.str "timestamp"),
        ("value", .int v), ("freq", optStrMsg freq), ("tz", .str z)])
        = decodeTimestampFields [("typ", Msg.str "timestamp"),
            ("value", .int v), ("freq", optStrMsg freq), ("tz", .str z)] := rfl
    simp [roundTrip, he, hroute, decodeTimestampFields, hasField, getField,
      reqField, msgOptStr_optStrMsg, msgOptStr_str, Bind.bind, Except.bind]
  · intro cs cats klass ordered hklass hcs
    have he : encode env Option.none (.categorical ⟨⟨.int8, [cs.length],
        .fixed cs⟩, .plain klass Option.none ⟨.object, [cats.length],
        .obj cats⟩, ordered⟩)
        = .ok (.map [("typ", .str "category"), ("klass", .str "Categorical"),
            ("name", .nil),
            ("codes", .map [("typ", .str "ndarray"),
              ("shape", .arr [.int (cs.length : Int)]), ("ndim", .int 1),
              ("dtype", .str "int8"),
              ("data", .ext 0 (wordsToBytes 1 cs)), ("compress", .nil)]),
            ("categories", .map [("typ", .str "index"),
              ("klass", .str klass), ("name", .nil), ("dtype", .str "object"),
              ("data", .arr (scalarsToMsg cats)), ("compress", .nil)]),
            ("ordered", .bool ordered), ("compress", .nil)]) := rfl
    have hcodes := unconvert_int8_ext env cs hcs
    have hre := reshape_fixed ⟨.int8, [cs.length], .fixed cs⟩ cs rfl
    have hucats : unconvert env (.list cats) .object Option.none
        = .ok ([], .arr ⟨.object, [cats.length], .obj cats⟩) := rfl
    have hshape : msgShape (.arr [.int (cs.length : Int)]) = .ok [cs.length] := by
      simp only [msgShape, List.mapM_cons, List.mapM_nil]
      simp only [Bind.bind, Except.bind, Pure.pure, Except.pure,
        Int.toNat_natCast]
      rw [if_neg (not_lt.mpr (Int.natCast_nonneg _))]
    simp [roundTrip, he, Bind.bind, Except.bind, decode, decodeCategoryMsg,
      decodeNDArrayMsg, decodePlainIndexFields, decodeIndexMsg,
      reqField, getField, optCompressField, msgToUnconvIn, npTypeDictLookup,
      dtype_for_msg, hshape, msgOptScalar_nil, msgOptStr_nil,
      msgsToScalars_scalarsToMsg, hcodes, hre, hucats, hklass,
      Except.map]
  · intro names rows hne hnames
    obtain ⟨r0, rrest, rfl⟩ : ∃ r0 rrest, rows = r0 :: rrest := by
      cases rows with
      | nil => exact absurd rfl hne
      | cons a b => exact ⟨a, b, rfl⟩
    have he : encode env Option.none (.index (.multi names (r0 :: rrest)))
        = .ok (.map [("typ", .str "multi_index"), ("klass", .str "MultiIndex"),
            ("names", .arr (names.map optScalarMsg)), ("dtype", .str "object"),
            ("data", .arr (scalarsToMsg ((r0 :: rrest).map PyScalar.tuple))),
            ("compress", .nil)]) := rfl
    have hu : unconvert env (.list ((r0 :: rrest).map PyScalar.tuple)) .object
        Option.none
        = .ok ([], .arr ⟨.object, [((r0 :: rrest).map PyScalar.tuple).length],
            .obj ((r0 :: rrest).map PyScalar.tuple)⟩) := rfl
    have hrows := mapM_tuple_rows (r0 :: rrest)
    have hnm := mapM_msgOptScalar_names names
    simp only [List.map_cons] at hu hrows
    have hrowsL : List.mapM.loop (fun x =>
        match x with
        | PyScalar.tuple t => Except.ok t
        | _ => Except.error
            "tuple() on a non-sequence row is outside the modelled fragment")
        (PyScalar.tuple r0 :: List.map PyScalar.tuple rrest) []
        = Except.ok (r0 :: rrest) := hrows
    have hnmL : List.mapM.loop msgOptScalar (List.map optScalarMsg names) []
        = Except.ok (List.map collapseName names) := hnm
    simp [roundTrip, he, Bind.bind, Except.bind, decode, decodeIndexMsg,
      decodeMultiIndexFields, reqField, getField, optCompressField,
      msgToUnconvIn, dtype_for_msg, npTypeDictLookup, msgOptStr_nil,
      msgsToScalars_scalarsToMsg, hu, hrowsL, hnmL, hnames, Except.map]
  · intro name f ords hne hords
    have he : encode env Option.none (.index (.periodIdx name f ords))
        = .ok (.map (periodIndexWire (optScalarMsg name) (.str f)
            ("period[" ++ f ++ "]")
            (.ext 0 (wordsToBytes 8 (ords.map bitsOfInt64))))) := rfl
    have hd := decodePeriodWire_ok env name ("period[" ++ f ++ "]") f ords
      hne hords
    simp [roundTrip, he, Bind.bind, Except.bind, hd]

/-- C1 witness: the round-trip identity instantiated at a tz-aware
timestamp, NaT, a small int8 categorical, a two-level MultiIndex and a
monthly PeriodIndex. -/
theorem c1_round_trip_identity_witness :
    roundTrip idEnv (.timestamp 1600000000000000000 (some "UTC") Option.none)
        = .ok (.timestamp 1600000000000000000 (some "UTC") Option.none)
    ∧ roundTrip idEnv .natVal = .ok .natVal
    ∧ roundTrip idEnv (.categorical ⟨⟨.int8, [4], .fixed [2, 0, 1, 255]⟩,
          .plain "Index" Option.none ⟨.object, [3],
            .obj [.str "a", .str "b", .str "c"]⟩, false⟩)
        = .ok (.categorical ⟨⟨.int8, [4], .fixed [2, 0, 1, 255]⟩,
            .plain "Index" Option.none ⟨.object, [3],
              .obj [.str "a", .str "b", .str "c"]⟩, false⟩)
    ∧ roundTrip idEnv (.index (.multi [some (.str "x"), Option.none]
          [[.str "p", .int 1], [.str "q", .int 2]]))
        = .ok (.index (.multi [some (.str "x"), Option.none]
            [[.str "p", .int 1], [.str "q", .int 2]]))
    ∧ roundTrip idEnv (.index (.periodIdx (some (.str "n")) "M" [5, -7]))
        = .ok (.index (.periodIdx Option.none "M" [5, -7])) := by
  obtain ⟨h1, h2, h3, h4, h5⟩ := c1_round_trip_identity idEnv
  refine ⟨h1 1600000000000000000 "UTC" Option.none, h2.1, ?_, ?_, ?_⟩
  · exact h3 [2, 0, 1, 255] [.str "a", .str "b", .str "c"] "Index" false
      (by decide) (by decide)
  · exact h4 [some (.str "x"), Option.none]
      [[.str "p", .int 1], [.str "q", .int 2]] (List.cons_ne_nil _ _) rfl
  · exact h5 (some (.str "n")) "M" [5, -7] (List.cons_ne_nil _ _) (by decide)

/-! ## Claim C10 — complex scalars and the sign of the imaginary repr -/

/-- Value-zero test on a float repr: every mantissa digit is zero
(covers `0.0` and `-0.0`); `inf` and `nan` are nonzero. -/
def FloatKind.isZero : FloatKind → Bool
  | .finite ip fp _ =>
      ip.all (· == 0) && (match fp with
        | some ds => ds.all (· == 0)
        | Option.none => true)
  | .inf => false
  | .nan => false

/-- Value-negativity of the float a repr denotes: the sign bit together
with a nonzero magnitude — in Python `-0.0 < 0` is `False`, yet
`repr(-0.0)` still begins with the minus sign. -/
def pyFloatValueNeg (f : PyFloatRepr) : Bool := f.neg && !f.kind.isZero

/-- A structurally sane repr magnitude: nonempty digit groups, every
digit below ten (every actual `repr` output satisfies this). -/
def FloatKind.wf : FloatKind → Prop
  | .finite ip fp ex =>
      ip ≠ [] ∧ (∀ d ∈ ip, d < 10)
        ∧ (match fp with
            | some ds => ds ≠ [] ∧ ∀ d ∈ ds, d < 10
            | Option.none => True)
        ∧ (match ex with
            | some p => p.2 ≠ [] ∧ ∀ d ∈ p.2, d < 10
            | Option.none => True)
  | .inf => True
  | .nan => True

/-- A character list that cannot extend a just-parsed number: its head is
no digit, no decimal point and no exponent marker. -/
def stopsNum (rest : List Char) : Prop :=
  ∀ c r, rest = c :: r →
    c.isDigit = false ∧ c ≠ '.' ∧ c ≠ 'e' ∧ c ≠ 'E'

theorem digitChar_isDigit (d : Nat) (h : d < 10) :
    (Nat.digitChar d).isDigit = true := by
  interval_cases d <;> decide

theorem digitVal_digitChar (d : Nat) (h : d < 10) :
    digitVal (Nat.digitChar d) = d := by
  interval_cases d <;> decide

theorem takeDigits_digitChars (ds : List Nat) (hds : ∀ d ∈ ds, d < 10)
    (rest : List Char)
    (hrest : ∀ c r, rest = c :: r → c.isDigit = false) :
    takeDigits (digitChars ds ++ rest) = (ds, rest) := by
  induction ds with
  | nil =>
      simp only [digitChars, List.map_nil, List.nil_append]
      cases rest with
      | nil => rfl
      | cons c r => simp [takeDigits, hrest c r rfl]
  | cons d ds ih =>
      have hd : d < 10 := hds d (by simp)
      simp only [digitChars, List.map_cons, List.cons_append]
      have ih2 := ih (fun x hx => hds x (by simp [hx]))
      simp only [digitChars] at ih2
      simp [takeDigits, digitChar_isDigit d hd, digitVal_digitChar d hd, ih2]

theorem digitChar_not_alpha (d : Nat) (h : d < 10) :
    Nat.digitChar d ≠ 'i' ∧ Nat.digitChar d ≠ 'n' := by
  interval_cases d <;> exact ⟨by decide, by decide⟩

theorem take3_ne_inf (c : Char) (cs : List Char) (h1 : c ≠ 'i') :
    ¬ ((c :: cs).take 3 = ['i', 'n', 'f']) := by
  simp [List.take_succ_cons, h1]

theorem take3_ne_nan (c : Char) (cs : List Char) (h2 : c ≠ 'n') :
    ¬ ((c :: cs).take 3 = ['n', 'a', 'n']) := by
  simp [List.take_succ_cons, h2]

theorem parseMag_renderKind (k : FloatKind) (hk : k.wf)
    (rest : List Char) (hrest : stopsNum rest) :
    parseMag (renderKind k ++ rest) = some (k, rest) := by
  cases k with
  | inf => rfl
  | nan => rfl
  | finite ip fp ex =>
      obtain ⟨hip, hipd, hfp, hex⟩ := hk
      obtain ⟨d, ip2, rfl⟩ : ∃ d ip2, ip = d :: ip2 := by
        cases ip with
        | nil => exact absurd rfl hip
        | cons a b => exact ⟨a, b, rfl⟩
      have hd : d < 10 := hipd d (by simp)
      have hne := digitChar_not_alpha d hd
      have hrest2 : ∀ c r, rest = c :: r → c.isDigit = false :=
        fun c r h => (hrest c r h).1
      cases fp with
      | none =>
          cases ex with
          | none =>
              have htd := takeDigits_digitChars (d :: ip2) hipd rest hrest2
              simp only [digitChars, List.map_cons, List.cons_append] at htd
              cases rest with
              | nil =>
                  simp only [List.append_nil] at htd
                  simp [renderKind, digitChars, parseMag, hne.1, hne.2, htd]
              | cons c r =>
                  obtain ⟨hcd, hcdot, hce, hcE⟩ := hrest c r rfl
                  simp [renderKind, digitChars, parseMag, hne.1, hne.2, htd,
                    hcd, hcdot, hce, hcE]
          | some p =>
              obtain ⟨sgn, es⟩ := p
              obtain ⟨hesne, hesd⟩ := hex
              obtain ⟨e0, es2, rfl⟩ : ∃ e0 es2, es = e0 :: es2 := by
                cases es with
                | nil => exact absurd rfl hesne
                | cons a b => exact ⟨a, b, rfl⟩
              have hte := takeDigits_digitChars (e0 :: es2) hesd rest hrest2
              simp only [digitChars, List.map_cons, List.cons_append] at hte
              cases sgn with
              | false =>
                  have htd := takeDigits_digitChars (d :: ip2) hipd
                    ('e' :: '+' ::
                      (e0.digitChar :: List.map Nat.digitChar es2 ++ rest))
                    (fun c r h => by cases h; decide)
                  simp only [digitChars, List.map_cons, List.cons_append] at htd
                  simp +decide [renderKind, digitChars, parseMag, hne.1, hne.2,
                    htd, hte]
              | true =>
                  have htd := takeDigits_digitChars (d :: ip2) hipd
                    ('e' :: '-' ::
                      (e0.digitChar :: List.map Nat.digitChar es2 ++ rest))
                    (fun c r h => by cases h; decide)
                  simp only [digitChars, List.map_cons, List.cons_append] at htd
                  simp +decide [renderKind, digitChars, parseMag, hne.1, hne.2,
                    htd, hte]
      | some ds =>
          obtain ⟨hdsne, hdsd⟩ := hfp
          cases ex with
          | none =>
              have htf := takeDigits_digitChars ds hdsd rest hrest2
              have htd := takeDigits_digitChars (d :: ip2) hipd
                ('.' :: (digitChars ds ++ rest))
                (fun c r h => by cases h; decide)
              simp only [digitChars, List.map_cons, List.cons_append] at htd htf
              cases rest with
              | nil =>
                  simp only [List.append_nil] at htd htf
                  simp [renderKind, digitChars, parseMag, hne.1, hne.2, htd,
                    htf]
              | cons c r =>
                  obtain ⟨hcd, hcdot, hce, hcE⟩ := hrest c r rfl
                  simp [renderKind, digitChars, parseMag, hne.1, hne.2, htd,
                    htf, hcd, hcdot, hce, hcE]
          | some p =>
              obtain ⟨sgn, es⟩ := p
              obtain ⟨hesne, hesd⟩ := hex
              obtain ⟨e0, es2, rfl⟩ : ∃ e0 es2, es = e0 :: es2 := by
                cases es with
                | nil => exact absurd rfl hesne
                | cons a b => exact ⟨a, b, rfl⟩
              have hte := takeDigits_digitChars (e0 :: es2) hesd rest hrest2
              simp only [digitChars, List.map_cons, List.cons_append] at hte
              cases sgn with
              | false =>
                  have htf := takeDigits_digitChars ds hdsd
                    ('e' :: '+' ::
                      (e0.digitChar :: List.map Nat.digitChar es2 ++ rest))
                    (fun c r h => by cases h; decide)
                  have htd := takeDigits_digitChars (d :: ip2) hipd
                    ('.' :: (digitChars ds ++ 'e' :: '+' ::
                      (e0.digitChar :: List.map Nat.digitChar es2 ++ rest)))
                    (fun c r h => by cases h; decide)
                  simp only [digitChars, List.map_cons, List.cons_append]
                    at htd htf
                  simp +decide [renderKind, digitChars, parseMag, hne.1, hne.2,
                    htd, htf, hte]
              | true =>
                  have htf := takeDigits_digitChars ds hdsd
                    ('e' :: '-' ::
                      (e0.digitChar :: List.map Nat.digitChar es2 ++ rest))
                    (fun c r h => by cases h; decide)
                  have htd := takeDigits_digitChars (d :: ip2) hipd
                    ('.' :: (digitChars ds ++ 'e' :: '-' ::
                      (e0.digitChar :: List.map Nat.digitChar es2 ++ rest)))
                    (fun c r h => by cases h; decide)
                  simp only [digitChars, List.map_cons, List.cons_append]
                    at htd htf
                  simp +decide [renderKind, digitChars, parseMag, hne.1, hne.2,
                    htd, htf, hte]

theorem digitChar_not_sign (d : Nat) (h : d < 10) :
    Nat.digitChar d ≠ '+' ∧ Nat.digitChar d ≠ '-' := by
  interval_cases d <;> exact ⟨by decide, by decide⟩

/-- A leading minus sign is not a magnitude: `strtod` consumes nothing. -/
theorem parseMag_neg (xs : List Char) : parseMag ('-' :: xs) = Option.none := by
  simp +decide [parseMag, takeDigits]

theorem parseSignedFloat_of_head (c : Char) (r : List Char)
    (h1 : c ≠ '+') (h2 : c ≠ '-') :
    parseSignedFloat (c :: r)
      = (parseMag (c :: r)).map (fun p => (⟨false, p.1⟩, p.2)) := by
  simp [parseSignedFloat, h1, h2]

theorem renderKind_head (k : FloatKind) (hk : k.wf) :
    ∃ c t, renderKind k = c :: t ∧ c ≠ '+' ∧ c ≠ '-' := by
  cases k with
  | inf => exact ⟨'i', ['n', 'f'], rfl, by decide, by decide⟩
  | nan => exact ⟨'n', ['a', 'n'], rfl, by decide, by decide⟩
  | finite ip fp ex =>
      obtain ⟨hip, hipd, h1, h2⟩ := hk
      obtain ⟨d, ip2, rfl⟩ : ∃ d ip2, ip = d :: ip2 := by
        cases ip with
        | nil => exact absurd rfl hip
        | cons a b => exact ⟨a, b, rfl⟩
      have hds := digitChar_not_sign d (hipd d (by simp))
      refine ⟨d.digitChar, List.map Nat.digitChar ip2
        ++ ((match fp with
            | some ds => '.' :: digitChars ds
            | Option.none => [])
          ++ (match ex with
            | some (sgn, ds) =>
                'e' :: (if sgn then '-' else '+') :: digitChars ds
            | Option.none => [])), ?_, hds.1, hds.2⟩
      cases fp <;> rcases ex with _ | ⟨sgn, es⟩ <;>
        simp [renderKind, digitChars]

theorem parseSignedFloat_render (f : PyFloatRepr) (hf : f.kind.wf)
    (rest : List Char) (hrest : stopsNum rest) :
    parseSignedFloat
        ((if f.neg then ['-'] else []) ++ (renderKind f.kind ++ rest))
      = some (f, rest) := by
  obtain ⟨neg, k⟩ := f
  have hpm := parseMag_renderKind k hf rest hrest
  cases neg with
  | true =>
      show parseSignedFloat ('-' :: (renderKind k ++ rest)) = _
      simp +decide [parseSignedFloat, hpm]
  | false =>
      show parseSignedFloat (renderKind k ++ rest) = _
      obtain ⟨c, t, hct, h1, h2⟩ := renderKind_head k hf
      rw [hct, List.cons_append, parseSignedFloat_of_head c (t ++ rest) h1 h2,
        ← List.cons_append, ← hct, hpm]
      rfl

/-- `complex(real + "+" + imag + "j")` over canonical reprs: succeeds and
recovers both parts exactly when the imaginary repr carries no sign;
raises the malformed-string error as soon as it does (the text then
contains the unparsable `+-`). -/
theorem complexOfString_concat (re im : PyFloatRepr) (hre : re.kind.wf)
    (him : im.kind.wf) :
    complexOfString (renderFloat re ++ "+" ++ renderFloat im ++ "j")
      = if im.neg then Except.error complexMalformed
        else Except.ok (re, im) := by
  obtain ⟨ineg, ik⟩ := im
  cases ineg with
  | false =>
      have hstops : stopsNum ('+' :: (renderKind ik ++ ['j'])) := by
        intro c r h
        cases h
        decide
      have h1 := parseSignedFloat_render re hre _ hstops
      have h2 := parseMag_renderKind ik him ['j']
        (by intro c r h; cases h; decide)
      have hcs : (renderFloat re ++ "+" ++ renderFloat ⟨false, ik⟩
          ++ "j").data
          = (if re.neg then ['-'] else [])
            ++ (renderKind re.kind ++ ('+' :: (renderKind ik ++ ['j']))) := by
        simp [renderFloat, String.data_append]
      simp only [complexOfString, hcs, h1]
      simp +decide [parseSignedFloat, h2]
  | true =>
      have hstops : stopsNum ('+' :: ('-' :: (renderKind ik ++ ['j']))) := by
        intro c r h
        cases h
        decide
      have h1 := parseSignedFloat_render re hre _ hstops
      have hcs : (renderFloat re ++ "+" ++ renderFloat ⟨true, ik⟩
          ++ "j").data
          = (if re.neg then ['-'] else [])
            ++ (renderKind re.kind
              ++ ('+' :: ('-' :: (renderKind ik ++ ['j'])))) := by
        simp [renderFloat, String.data_append]
      simp only [complexOfString, hcs, h1]
      simp +decide [parseSignedFloat, parseMag_neg]

/-- C10 counterexample: the claim says `decode(encode(z))` raises exactly
when `z.imag` is negative.  Take `z = complex(1.0, -0.0)`: its imaginary
part is the float `-0.0`, which is *not* negative (`-0.0 < 0` is `False`),
yet `repr(-0.0) = "-0.0"` makes the concatenation read `1.0+-0.0j` and
`complex()` raises — decode fails on a non-negative imaginary part. -/
theorem c10_counterexample :
    pyFloatValueNeg ⟨true, .finite [0] (some [0]) Option.none⟩ = false
    ∧ roundTrip idEnv
        (.pyComplex ⟨false, .finite [1] (some [0]) Option.none⟩
          ⟨true, .finite [0] (some [0]) Option.none⟩)
      = .error complexMalformed := ⟨rfl, rfl⟩

/-- C10 (amended): `encode` stores a complex scalar as the reprs of its
real and imaginary parts, and `decode` parses
`real + "+" + imag + "j"`; the round trip returns the value exactly when
the imaginary repr carries no leading minus sign, and raises the
malformed-string parse error whenever it does — the sign of the *repr*
(which is also set for `-0.0` and `-inf`), not value-negativity, is the
failure condition. -/
theorem c10_complex_parse_round_trip (env : CompressEnv)
    (re im : PyFloatRepr) (hre : re.kind.wf) (him : im.kind.wf) :
    encode env Option.none (.pyComplex re im)
      = .ok (.map [("typ", .str "np_complex"),
          ("real", .str (renderFloat re)), ("imag", .str (renderFloat im))])
    ∧ roundTrip env (.pyComplex re im)
      = (if im.neg then .error complexMalformed
         else .ok (.pyComplex re im)) := by
  refine ⟨rfl, ?_⟩
  have he : encode env Option.none (.pyComplex re im)
      = .ok (.map [("typ", .str "np_complex"),
          ("real", .str (renderFloat re)),
          ("imag", .str (renderFloat im))]) := rfl
  have hroute : decode env false (.map [("typ", Msg.str "np_complex"),
      ("real", .str (renderFloat re)), ("imag", .str (renderFloat im))])
      = decodeNpComplexFields [("typ", Msg.str "np_complex"),
          ("real", .str (renderFloat re)), ("imag", .str (renderFloat im))]
      := rfl
  have hc := complexOfString_concat re im hre him
  cases h : im.neg <;>
    simp [roundTrip, he, hroute, Bind.bind, Except.bind,
      decodeNpComplexFields, reqField, getField, hc, h, Except.map]

/-- C10 witness: `1.5 + 2.0e-8j` round-trips; `-inf + 3e+2j` with the
imaginary repr signed raises the malformed-string error. -/
theorem c10_complex_parse_round_trip_witness :
    roundTrip idEnv (.pyComplex ⟨false, .finite [1] (some [5]) Option.none⟩
        ⟨false, .finite [2] (some [0]) (some (true, [8]))⟩)
      = .ok (.pyComplex ⟨false, .finite [1] (some [5]) Option.none⟩
          ⟨false, .finite [2] (some [0]) (some (true, [8]))⟩)
    ∧ roundTrip idEnv (.pyComplex ⟨true, .inf⟩
        ⟨true, .finite [3] Option.none (some (false, [2]))⟩)
      = .error complexMalformed := by
  have h1 := (c10_complex_parse_round_trip idEnv
    ⟨false, .finite [1] (some [5]) Option.none⟩
    ⟨false, .finite [2] (some [0]) (some (true, [8]))⟩
    ⟨by decide, by decide, by decide, trivial⟩
    ⟨by decide, by decide, by decide, by decide⟩).2
  have h2 := (c10_complex_parse_round_trip idEnv ⟨true, .inf⟩
    ⟨true, .finite [3] Option.none (some (false, [2]))⟩
    trivial
    ⟨by decide, by decide, trivial, by decide⟩).2
  exact ⟨by simpa using h1, by simpa using h2⟩

end PandasMsgpack
